import Mathlib

/-!
Verification development for the SoftcoreCPU toolchain (assembler + emulator).
The definitions below are a shallow embedding of the Rust sources:
`src/Emulator/src/{instructions,registers,cpu_cycle}.rs` and
`src/Assembler/src/{encoder,parser,symbols}.rs`.
Machine integers are modelled as `Nat`/`Int` with explicit wrapping
(`% 65536` for `u16`, `% 256` for `u8`, two's complement for `i16`).
-/

/-! ## Integer casts (Rust `as` semantics) -/

/-- Rust `x as u16` for a signed value: two's complement wrap into 0..65535. -/
def toU16 (v : Int) : Nat := (v.emod 65536).toNat

/-- Rust `u16 as i16` reinterpretation: values ≥ 2^15 become negative. -/
def toI16 (n : Nat) : Int :=
  if n % 65536 < 32768 then Int.ofNat (n % 65536) else Int.ofNat (n % 65536) - 65536

/-- Rust `i16 as usize` (64-bit sign extension then reinterpretation). -/
def i16ToUsize (v : Int) : Nat := (v.emod 18446744073709551616).toNat

/-- Rust `i16::checked_add`: `some` iff the signed 16-bit sum does not overflow. -/
def checkedAdd (a b : Int) : Option Int :=
  if -32768 ≤ a + b ∧ a + b ≤ 32767 then some (a + b) else none

/-- Rust `i16::checked_sub`: `some` iff the signed 16-bit difference does not overflow. -/
def checkedSub (a b : Int) : Option Int :=
  if -32768 ≤ a - b ∧ a - b ≤ 32767 then some (a - b) else none

/-! ## Emulator: instruction frame constants (src/Emulator/src/instructions.rs) -/

def OPCODE_SIZE : Nat := 5
def REG_ADDR_SIZE : Nat := 3
def REG_POS0_ROFFSET : Nat := OPCODE_SIZE
def REG_POS1_ROFFSET : Nat := REG_POS0_ROFFSET + REG_ADDR_SIZE
def REG_POS2_ROFFSET : Nat := REG_POS1_ROFFSET + REG_ADDR_SIZE
def MEM_OFFSET_SIZE : Nat := 5
def MEM_OFFSET_ROFFSET : Nat := REG_POS2_ROFFSET
def MEM_LABEL_SIZE : Nat := 11
def MEM_LABEL_ROFFSET : Nat := OPCODE_SIZE
def PUSHPOP_NUM_SIZE : Nat := 2
def PUSHPOP_NUM_ROFFSET : Nat := REG_POS2_ROFFSET + REG_ADDR_SIZE
def B8_CONSTANT_SIZE : Nat := 8
def B8_CONSTANT_ROFFSET : Nat := REG_POS0_ROFFSET + REG_ADDR_SIZE
def B5_CONSTANT_SIZE : Nat := 5
def B5_CONSTANT_ROFFSET : Nat := REG_POS1_ROFFSET + REG_ADDR_SIZE
def B4_CONSTANT_SIZE : Nat := 4
def B4_CONSTANT_ROFFSET : Nat := REG_POS1_ROFFSET + REG_ADDR_SIZE

/-- The mask-building loop of `extract_bits`: starts at `mask = 1` and performs
`mask <<= 1; mask |= 1` a given number of times. -/
def maskLoop : Nat → Nat → Nat
  | 0, m => m
  | n + 1, m => maskLoop n ((m <<< 1) ||| 1)

/-- `extract_bits(num, size, right_offset)` from src/Emulator/src/instructions.rs:
value of `size` bits located `right_offset` bits from the MSB side of a 16-bit word. -/
def extract_bits (num size right_offset : Nat) : Nat :=
  let left_offset := 16 - right_offset - size
  let mask := (maskLoop (size - 1) 1) <<< left_offset
  (num &&& mask) >>> left_offset

/-! ## Assembler: instruction shapes and bit packing (src/Assembler/src/encoder.rs) -/

inductive InstructionType where
  | T1 (op r c : Nat)
  | T2 (op rp0 rp1 f1 : Nat)
  | T3 (op : Nat) (f2 : Nat)
  | T4 (op rp0 rp1 rp2 : Nat)
  | T5 (op rp0 rp1 c : Nat)

def UNUSED : Nat := 0

/-- `encode` from src/Assembler/src/encoder.rs: packs an `InstructionType` into the
big-endian byte pair `[msb, lsb]`; shifts happen in `u16`, final bytes are `u8`. -/
def encode : InstructionType → List Nat
  | .T1 op r c =>
    let msb := ((((op <<< 11) % 65536) ||| ((r <<< 8) % 65536)) >>> 8) % 256
    [msb, c]
  | .T2 op rp0 rp1 f1 =>
    let msb := ((((op <<< 11) % 65536) ||| ((rp0 <<< 8) % 65536)) >>> 8) % 256
    let lsb := (((rp1 <<< 5) % 65536) ||| f1) % 256
    [msb, lsb]
  | .T3 op f2 =>
    let instr16bit := ((op <<< 11) % 65536) ||| f2
    let msb := (instr16bit >>> 8) % 256
    let lsb := instr16bit % 256
    [msb, lsb]
  | .T4 op rp0 rp1 rp2 =>
    let msb := ((((op <<< 11) % 65536) ||| ((rp0 <<< 8) % 65536)) >>> 8) % 256
    let lsb := (((rp1 <<< 5) % 65536) ||| ((rp2 <<< 2) % 65536)) % 256
    [msb, lsb]
  | .T5 op rp0 rp1 c =>
    let msb := ((((op <<< 11) % 65536) ||| ((rp0 <<< 8) % 65536)) >>> 8) % 256
    let lsb := (((rp1 <<< 5) % 65536) ||| ((c <<< 1) % 65536)) % 256
    [msb, lsb]

/-- The 16-bit instruction word obtained from a big-endian byte pair, as the
emulator's loader does (`u16::from_be_bytes`). -/
def wordOfBytes : List Nat → Nat
  | [msb, lsb] => msb * 256 + lsb
  | _ => 0

/-! ## Basic lemmas about extract_bits -/

theorem maskLoop_one (n : Nat) : maskLoop n 1 = 2 ^ (n + 1) - 1 := by
  suffices h : ∀ k m, maskLoop k m = m * 2 ^ k + (2 ^ k - 1) by
    rw [h]; ring_nf; omega
  intro k
  induction k with
  | zero => intro m; simp [maskLoop]
  | succ n ih =>
    intro m
    have hstep : (m <<< 1) ||| 1 = 2 * m + 1 := by
      have h1 : m <<< 1 = 2 ^ 1 * m := by rw [Nat.shiftLeft_eq]; ring
      rw [h1, ← Nat.mul_add_lt_is_or (by norm_num) m]
    rw [maskLoop, hstep, ih, pow_succ]
    have h3 : (1 : Nat) ≤ 2 ^ n := Nat.one_le_two_pow
    have e1 : (2 * m + 1) * 2 ^ n = 2 * (m * 2 ^ n) + 2 ^ n := by ring
    have e2 : m * (2 ^ n * 2) = 2 * (m * 2 ^ n) := by ring
    omega

theorem and_shiftLeft_shiftRight (n m lo : Nat) :
    (n &&& (m <<< lo)) >>> lo = (n >>> lo) &&& m := by
  apply Nat.eq_of_testBit_eq
  intro i
  simp [Nat.testBit_shiftRight, Nat.testBit_and, Nat.testBit_shiftLeft,
        Nat.le_add_right, Nat.add_sub_cancel_left]

/-- Arithmetic characterization of `extract_bits`. -/
theorem extract_bits_eq (num size roff : Nat) (h : 1 ≤ size) :
    extract_bits num size roff = (num / 2 ^ (16 - roff - size)) % 2 ^ size := by
  unfold extract_bits
  rw [maskLoop_one, and_shiftLeft_shiftRight]
  have hs : size - 1 + 1 = size := by omega
  rw [hs, Nat.and_pow_two_sub_one_eq_mod, Nat.shiftRight_eq_div_pow]

theorem extract_bits_lt (num size roff : Nat) (h : 1 ≤ size) :
    extract_bits num size roff < 2 ^ size := by
  rw [extract_bits_eq num size roff h]
  exact Nat.mod_lt _ (Nat.pos_pow_of_pos _ (by norm_num))

/-! ## Emulator: register file (src/Emulator/src/registers.rs) -/

def REG_TOTAL_NUM : Nat := 8
def MBR_PTR : Nat := 7
def LNR_PTR : Nat := 6
def SP_PTR : Nat := 5

/-- The register file: eight signed 16-bit general-purpose slots, pc/ir/mar
(unsigned 16-bit), acc (signed) and the `flags` byte. -/
structure Registers where
  gp : Nat → Int
  pc : Nat
  acc : Int
  ir : Nat
  mar : Nat
  flags : Nat

inductive Flags where
  | OV
  | CA
  | ZR
  | NG
deriving DecidableEq

/-- Rust enum discriminants: OV=0, CA=1, ZR=2, NG=3 (declaration order). -/
def flagBit : Flags → Nat
  | .OV => 0
  | .CA => 1
  | .ZR => 2
  | .NG => 3

def Registers.new : Registers :=
  { gp := fun _ => 0, pc := 0, acc := 0, ir := 0, mar := 0, flags := 0 }

/-- One iteration of `change_flags`: set (`|=`) or clear (`&= !(1<<b)`, with `!` the
bitwise u8 complement) the bit of one flag. -/
def applyFlag (f : Nat) : Flags × Bool → Nat
  | (fl, true) => f ||| (1 <<< flagBit fl)
  | (fl, false) => f &&& (255 ^^^ (1 <<< flagBit fl))

/-- `Registers::change_flags` from src/Emulator/src/registers.rs. -/
def change_flags (l : List (Flags × Bool)) (f : Nat) : Nat := l.foldl applyFlag f

/-- `Registers::read_flag` from src/Emulator/src/registers.rs. -/
def read_flag (fl : Flags) (f : Nat) : Bool :=
  ((f &&& (1 <<< flagBit fl)) >>> flagBit fl) == 1

/-- Pointwise update of the register file array. -/
def updGp (g : Nat → Int) (i : Nat) (v : Int) : Nat → Int :=
  fun j => if j = i then v else g j

/-! ## Emulator: memory and instruction execution (src/Emulator/src/instructions.rs) -/

/-- Main memory: 16-bit words, addressed by `usize`. -/
def Memory : Type := Nat → Nat

def updMem (m : Memory) (i v : Nat) : Memory :=
  fun j => if j = i then v else m j

def mov_im (regs : Registers) : Registers :=
  let reg_dst := extract_bits regs.ir REG_ADDR_SIZE REG_POS0_ROFFSET
  let val := extract_bits regs.ir B8_CONSTANT_SIZE B8_CONSTANT_ROFFSET
  { regs with gp := updGp regs.gp reg_dst (Int.ofNat val) }

def mov_rg (regs : Registers) : Registers :=
  let reg_dst := extract_bits regs.ir REG_ADDR_SIZE REG_POS0_ROFFSET
  let reg_src := extract_bits regs.ir REG_ADDR_SIZE REG_POS1_ROFFSET
  { regs with gp := updGp regs.gp reg_dst (regs.gp reg_src) }

def load (regs : Registers) (mem : Memory) : Registers :=
  let label := extract_bits regs.ir MEM_LABEL_SIZE MEM_LABEL_ROFFSET
  { regs with gp := updGp regs.gp MBR_PTR (toI16 (mem label)) }

def load_rg (regs : Registers) (mem : Memory) : Registers :=
  let reg_dst := extract_bits regs.ir REG_ADDR_SIZE REG_POS0_ROFFSET
  let reg_adr := extract_bits regs.ir REG_ADDR_SIZE REG_POS1_ROFFSET
  let ofst := extract_bits regs.ir MEM_OFFSET_SIZE MEM_OFFSET_ROFFSET
  { regs with gp := updGp regs.gp reg_dst (toI16 (mem (reg_adr + ofst))) }

def store (regs : Registers) (mem : Memory) : Memory :=
  let label := extract_bits regs.ir MEM_LABEL_SIZE MEM_LABEL_ROFFSET
  updMem mem label (toU16 (regs.gp MBR_PTR))

def store_rg (regs : Registers) (mem : Memory) : Memory :=
  let reg_src := extract_bits regs.ir REG_ADDR_SIZE REG_POS0_ROFFSET
  let reg_adr := extract_bits regs.ir REG_ADDR_SIZE REG_POS1_ROFFSET
  let ofst := extract_bits regs.ir MEM_OFFSET_SIZE MEM_OFFSET_ROFFSET
  updMem mem (reg_adr + ofst) (toU16 (regs.gp reg_src))

/-- One iteration of the `push` loop: decrement sp, then write `gp[addr]` to `mem[sp]`. -/
def pushIter (regs : Registers) (mem : Memory) (i : Nat) : Registers × Memory :=
  let addr := extract_bits regs.ir REG_ADDR_SIZE (REG_POS0_ROFFSET + REG_ADDR_SIZE * i)
  let regs := { regs with gp := updGp regs.gp SP_PTR (regs.gp SP_PTR - 1) }
  (regs, updMem mem (i16ToUsize (regs.gp SP_PTR)) (toU16 (regs.gp addr)))

def push (regs : Registers) (mem : Memory) : Registers × Memory :=
  let num := extract_bits regs.ir PUSHPOP_NUM_SIZE PUSHPOP_NUM_ROFFSET
  (List.range num).foldl (fun p i => pushIter p.1 p.2 i) (regs, mem)

/-- One iteration of the `pop` loop: read `mem[sp]` into `gp[addr]`, then increment sp. -/
def popIter (regs : Registers) (mem : Memory) (i : Nat) : Registers :=
  let addr := extract_bits regs.ir REG_ADDR_SIZE (REG_POS0_ROFFSET + REG_ADDR_SIZE * i)
  let regs := { regs with gp := updGp regs.gp addr (toI16 (mem (i16ToUsize (regs.gp SP_PTR)))) }
  { regs with gp := updGp regs.gp SP_PTR (regs.gp SP_PTR + 1) }

def pop (regs : Registers) (mem : Memory) : Registers :=
  let num := extract_bits regs.ir PUSHPOP_NUM_SIZE PUSHPOP_NUM_ROFFSET
  (List.range num).foldl (fun r i => popIter r mem i) regs

def add_im (regs : Registers) : Registers :=
  let reg_dst := extract_bits regs.ir REG_ADDR_SIZE REG_POS0_ROFFSET
  let reg_a := extract_bits regs.ir REG_ADDR_SIZE REG_POS1_ROFFSET
  let val := extract_bits regs.ir B5_CONSTANT_SIZE B5_CONSTANT_ROFFSET
  match checkedAdd (regs.gp reg_a) (Int.ofNat val) with
  | some v =>
    let regs := { regs with gp := updGp regs.gp reg_dst v }
    let regs := { regs with flags := change_flags [(.OV, false), (.CA, false)] regs.flags }
    if v = 0 then { regs with flags := change_flags [(.ZR, true), (.NG, false)] regs.flags }
    else if v < 0 then { regs with flags := change_flags [(.ZR, false), (.NG, true)] regs.flags }
    else regs
  | none => { regs with flags := change_flags [(.OV, true), (.CA, true)] regs.flags }

def add_rg (regs : Registers) : Registers :=
  let reg_dst := extract_bits regs.ir REG_ADDR_SIZE REG_POS0_ROFFSET
  let reg_a := extract_bits regs.ir REG_ADDR_SIZE REG_POS1_ROFFSET
  let reg_b := extract_bits regs.ir REG_ADDR_SIZE REG_POS2_ROFFSET
  match checkedAdd (regs.gp reg_a) (regs.gp reg_b) with
  | some v =>
    let regs := { regs with gp := updGp regs.gp reg_dst v }
    let regs := { regs with flags := change_flags [(.OV, false), (.CA, false)] regs.flags }
    if v = 0 then { regs with flags := change_flags [(.ZR, true), (.NG, false)] regs.flags }
    else if v < 0 then { regs with flags := change_flags [(.ZR, false), (.NG, true)] regs.flags }
    else regs
  | none => { regs with flags := change_flags [(.OV, true), (.CA, true)] regs.flags }

def sub_im (regs : Registers) : Registers :=
  let reg_dst := extract_bits regs.ir REG_ADDR_SIZE REG_POS0_ROFFSET
  let reg_a := extract_bits regs.ir REG_ADDR_SIZE REG_POS1_ROFFSET
  let val := extract_bits regs.ir B5_CONSTANT_SIZE B5_CONSTANT_ROFFSET
  match checkedSub (regs.gp reg_a) (Int.ofNat val) with
  | some v =>
    let regs := { regs with gp := updGp regs.gp reg_dst v }
    let regs := { regs with flags := change_flags [(.OV, false)] regs.flags }
    if v = 0 then
      { regs with flags := change_flags [(.CA, true), (.ZR, true), (.NG, false)] regs.flags }
    else if v > 0 then
      { regs with flags := change_flags [(.CA, true), (.ZR, false), (.NG, false)] regs.flags }
    else
      { regs with flags := change_flags [(.CA, false), (.ZR, false), (.NG, true)] regs.flags }
  | none => { regs with flags := change_flags [(.OV, true)] regs.flags }

def sub_rg (regs : Registers) : Registers :=
  let reg_dst := extract_bits regs.ir REG_ADDR_SIZE REG_POS0_ROFFSET
  let reg_a := extract_bits regs.ir REG_ADDR_SIZE REG_POS1_ROFFSET
  let reg_b := extract_bits regs.ir REG_ADDR_SIZE REG_POS2_ROFFSET
  match checkedSub (regs.gp reg_a) (regs.gp reg_b) with
  | some v =>
    let regs := { regs with gp := updGp regs.gp reg_dst v }
    let regs := { regs with flags := change_flags [(.OV, false)] regs.flags }
    if v = 0 then
      { regs with flags := change_flags [(.CA, true), (.ZR, true), (.NG, false)] regs.flags }
    else if v > 0 then
      { regs with flags := change_flags [(.CA, true), (.ZR, false), (.NG, false)] regs.flags }
    else
      { regs with flags := change_flags [(.CA, false), (.ZR, false), (.NG, true)] regs.flags }
  | none => { regs with flags := change_flags [(.OV, true)] regs.flags }

/-- Rust `i16 <<`: bits shifted out are discarded (two's complement wrap). -/
def i16Shl (x : Int) (k : Nat) : Int := toI16 ((toU16 x) <<< k)

/-- Rust `i16 >>`: arithmetic (sign-extending) shift, i.e. floor division by 2^k. -/
def i16Shr (x : Int) (k : Nat) : Int := Int.fdiv x (2 ^ k)

def shift_l (regs : Registers) : Registers :=
  let reg_dst := extract_bits regs.ir REG_ADDR_SIZE REG_POS0_ROFFSET
  let reg_src := extract_bits regs.ir REG_ADDR_SIZE REG_POS1_ROFFSET
  let val := extract_bits regs.ir B4_CONSTANT_SIZE B4_CONSTANT_ROFFSET
  let regs := { regs with gp := updGp regs.gp reg_dst (i16Shl (regs.gp reg_src) val) }
  let regs :=
    if regs.gp reg_dst = 0 then
      { regs with flags := change_flags [(.ZR, true), (.NG, false)] regs.flags }
    else if regs.gp reg_dst < 0 then
      { regs with flags := change_flags [(.ZR, false), (.NG, true)] regs.flags }
    else regs
  { regs with flags := change_flags [(.OV, false), (.CA, false)] regs.flags }

def shift_r (regs : Registers) : Registers :=
  let reg_dst := extract_bits regs.ir REG_ADDR_SIZE REG_POS0_ROFFSET
  let reg_src := extract_bits regs.ir REG_ADDR_SIZE REG_POS1_ROFFSET
  let val := extract_bits regs.ir B4_CONSTANT_SIZE B4_CONSTANT_ROFFSET
  let regs := { regs with gp := updGp regs.gp reg_dst (i16Shr (regs.gp reg_src) val) }
  let regs :=
    if regs.gp reg_dst = 0 then
      { regs with flags := change_flags [(.ZR, true), (.NG, false)] regs.flags }
    else if regs.gp reg_dst < 0 then
      { regs with flags := change_flags [(.ZR, false), (.NG, true)] regs.flags }
    else regs
  { regs with flags := change_flags [(.OV, false), (.CA, false)] regs.flags }

/-- Rust `i16 &`: bitwise and on the two's complement representation. -/
def i16And (a b : Int) : Int := toI16 ((toU16 a) &&& (toU16 b))

/-- Rust `i16 |`: bitwise or on the two's complement representation. -/
def i16Or (a b : Int) : Int := toI16 ((toU16 a) ||| (toU16 b))

/-- Rust `!` on i16: bitwise complement. -/
def i16Not (a : Int) : Int := toI16 (65535 ^^^ (toU16 a))

def and_i (regs : Registers) : Registers :=
  let reg_dst := extract_bits regs.ir REG_ADDR_SIZE REG_POS0_ROFFSET
  let reg_a := extract_bits regs.ir REG_ADDR_SIZE REG_POS1_ROFFSET
  let reg_b := extract_bits regs.ir REG_ADDR_SIZE REG_POS2_ROFFSET
  let regs := { regs with gp := updGp regs.gp reg_dst (i16And (regs.gp reg_a) (regs.gp reg_b)) }
  let regs :=
    if regs.gp reg_dst = 0 then
      { regs with flags := change_flags [(.ZR, true), (.NG, false)] regs.flags }
    else if regs.gp reg_dst < 0 then
      { regs with flags := change_flags [(.ZR, false), (.NG, true)] regs.flags }
    else regs
  { regs with flags := change_flags [(.OV, false), (.CA, false)] regs.flags }

def or_i (regs : Registers) : Registers :=
  let reg_dst := extract_bits regs.ir REG_ADDR_SIZE REG_POS0_ROFFSET
  let reg_a := extract_bits regs.ir REG_ADDR_SIZE REG_POS1_ROFFSET
  let reg_b := extract_bits regs.ir REG_ADDR_SIZE REG_POS2_ROFFSET
  let regs := { regs with gp := updGp regs.gp reg_dst (i16Or (regs.gp reg_a) (regs.gp reg_b)) }
  let regs :=
    if regs.gp reg_dst = 0 then
      { regs with flags := change_flags [(.ZR, true), (.NG, false)] regs.flags }
    else if regs.gp reg_dst < 0 then
      { regs with flags := change_flags [(.ZR, false), (.NG, true)] regs.flags }
    else regs
  { regs with flags := change_flags [(.OV, false), (.CA, false)] regs.flags }

def not_i (regs : Registers) : Registers :=
  let reg_dst := extract_bits regs.ir REG_ADDR_SIZE REG_POS0_ROFFSET
  let reg_src := extract_bits regs.ir REG_ADDR_SIZE REG_POS1_ROFFSET
  let regs := { regs with gp := updGp regs.gp reg_dst (i16Not (regs.gp reg_src)) }
  let regs :=
    if regs.gp reg_dst = 0 then
      { regs with flags := change_flags [(.ZR, true), (.NG, false)] regs.flags }
    else if regs.gp reg_dst < 0 then
      { regs with flags := change_flags [(.ZR, false), (.NG, true)] regs.flags }
    else regs
  { regs with flags := change_flags [(.OV, false), (.CA, false)] regs.flags }

def jmp (regs : Registers) : Registers :=
  let label := extract_bits regs.ir MEM_LABEL_SIZE MEM_LABEL_ROFFSET
  { regs with pc := label }

def bln (regs : Registers) : Registers :=
  let label := extract_bits regs.ir MEM_LABEL_SIZE MEM_LABEL_ROFFSET
  let regs := { regs with gp := updGp regs.gp LNR_PTR (toI16 regs.pc) }
  { regs with pc := label }

def ret (regs : Registers) : Registers :=
  { regs with pc := toU16 (regs.gp LNR_PTR) }

def cmp_im (regs : Registers) : Registers :=
  let reg_a := extract_bits regs.ir REG_ADDR_SIZE REG_POS0_ROFFSET
  let val := extract_bits regs.ir B8_CONSTANT_SIZE B8_CONSTANT_ROFFSET
  match checkedSub (regs.gp reg_a) (Int.ofNat val) with
  | some v =>
    let regs := { regs with flags := change_flags [(.OV, false)] regs.flags }
    if v = 0 then
      { regs with flags := change_flags [(.CA, true), (.ZR, true), (.NG, false)] regs.flags }
    else if v > 0 then
      { regs with flags := change_flags [(.CA, true), (.ZR, false), (.NG, false)] regs.flags }
    else
      { regs with flags := change_flags [(.CA, false), (.ZR, false), (.NG, true)] regs.flags }
  | none => { regs with flags := change_flags [(.OV, true)] regs.flags }

def cmp_rg (regs : Registers) : Registers :=
  let reg_a := extract_bits regs.ir REG_ADDR_SIZE REG_POS0_ROFFSET
  let reg_b := extract_bits regs.ir REG_ADDR_SIZE REG_POS1_ROFFSET
  match checkedSub (regs.gp reg_a) (regs.gp reg_b) with
  | some v =>
    let regs := { regs with flags := change_flags [(.OV, false)] regs.flags }
    if v = 0 then
      { regs with flags := change_flags [(.CA, true), (.ZR, true), (.NG, false)] regs.flags }
    else if v > 0 then
      { regs with flags := change_flags [(.CA, true), (.ZR, false), (.NG, false)] regs.flags }
    else
      { regs with flags := change_flags [(.CA, false), (.ZR, false), (.NG, true)] regs.flags }
  | none => { regs with flags := change_flags [(.OV, true)] regs.flags }

def branch_on_condition (cond : Bool) (regs : Registers) : Registers :=
  if cond then
    { regs with pc := extract_bits regs.ir MEM_LABEL_SIZE MEM_LABEL_ROFFSET }
  else regs

def beq (regs : Registers) : Registers :=
  branch_on_condition (read_flag .ZR regs.flags) regs

def bne_i (regs : Registers) : Registers :=
  branch_on_condition (! read_flag .ZR regs.flags) regs

def bgt (regs : Registers) : Registers :=
  branch_on_condition (read_flag .NG regs.flags == read_flag .OV regs.flags) regs

def bgtu (regs : Registers) : Registers :=
  branch_on_condition (read_flag .CA regs.flags && ! read_flag .ZR regs.flags) regs

def blt (regs : Registers) : Registers :=
  branch_on_condition (read_flag .NG regs.flags != read_flag .OV regs.flags) regs

def bltu (regs : Registers) : Registers :=
  branch_on_condition (! read_flag .CA regs.flags) regs

/-! ## Emulator: fetch-decode-execute (src/Emulator/src/cpu_cycle.rs) -/

/-- The 29-case opcode enumeration (src/Emulator/src/instructions.rs). -/
inductive Opcode where
  | MovIm | MovRg | Load | LoadRg | Store | StrRg | Push | Pop
  | AddIm | AddRg | SubIm | SubRg | ShftL | ShftR | And | Or | Not
  | Jmp | Bln | Ret | CmpIm | CmpRg
  | Beq | Bne | Bgt | Bgtu | Blt | Bltu | Halt
deriving DecidableEq

/-- `FromPrimitive::from_u8`: dense numeric codes 0x00..=0x1C in declaration order;
anything else fails. -/
def opcodeOfNat : Nat → Option Opcode
  | 0 => some .MovIm
  | 1 => some .MovRg
  | 2 => some .Load
  | 3 => some .LoadRg
  | 4 => some .Store
  | 5 => some .StrRg
  | 6 => some .Push
  | 7 => some .Pop
  | 8 => some .AddIm
  | 9 => some .AddRg
  | 10 => some .SubIm
  | 11 => some .SubRg
  | 12 => some .ShftL
  | 13 => some .ShftR
  | 14 => some .And
  | 15 => some .Or
  | 16 => some .Not
  | 17 => some .Jmp
  | 18 => some .Bln
  | 19 => some .Ret
  | 20 => some .CmpIm
  | 21 => some .CmpRg
  | 22 => some .Beq
  | 23 => some .Bne
  | 24 => some .Bgt
  | 25 => some .Bgtu
  | 26 => some .Blt
  | 27 => some .Bltu
  | 28 => some .Halt
  | _ => none

/-- The three outcomes the execute stage signals to the driver loop:
`normal` (None: increment pc), `skip` (Continue: pc already handled),
`halted` (Break: stop the loop). -/
inductive Outcome where
  | normal
  | skip
  | halted
deriving DecidableEq

/-- `fetch` from src/Emulator/src/cpu_cycle.rs: `ram[pc]`. -/
def fetch (pc : Nat) (ram : Memory) : Nat := ram pc

/-- `decode` from src/Emulator/src/cpu_cycle.rs: `(ir >> 11) as u8`. -/
def decode (ir_reg : Nat) : Nat := (ir_reg >>> 11) % 256

/-- The per-opcode dispatch of `execute` from src/Emulator/src/cpu_cycle.rs.
Branch-family opcodes (jmp, bln, ret and all conditional branches) return
`skip` (the code's `skip_pc_increment`) unconditionally; Halt returns `halted`. -/
def execInstr : Opcode → Registers → Memory → Registers × Memory × Outcome
  | .MovIm, r, m => (mov_im r, m, .normal)
  | .MovRg, r, m => (mov_rg r, m, .normal)
  | .Load, r, m => (load r m, m, .normal)
  | .LoadRg, r, m => (load_rg r m, m, .normal)
  | .Store, r, m => (r, store r m, .normal)
  | .StrRg, r, m => (r, store_rg r m, .normal)
  | .Push, r, m => let p := push r m; (p.1, p.2, .normal)
  | .Pop, r, m => (pop r m, m, .normal)
  | .AddIm, r, m => (add_im r, m, .normal)
  | .AddRg, r, m => (add_rg r, m, .normal)
  | .SubIm, r, m => (sub_im r, m, .normal)
  | .SubRg, r, m => (sub_rg r, m, .normal)
  | .ShftL, r, m => (shift_l r, m, .normal)
  | .ShftR, r, m => (shift_r r, m, .normal)
  | .And, r, m => (and_i r, m, .normal)
  | .Or, r, m => (or_i r, m, .normal)
  | .Not, r, m => (not_i r, m, .normal)
  | .Jmp, r, m => (jmp r, m, .skip)
  | .Bln, r, m => (bln r, m, .skip)
  | .Ret, r, m => (ret r, m, .skip)
  | .CmpIm, r, m => (cmp_im r, m, .normal)
  | .CmpRg, r, m => (cmp_rg r, m, .normal)
  | .Beq, r, m => (beq r, m, .skip)
  | .Bne, r, m => (bne_i r, m, .skip)
  | .Bgt, r, m => (bgt r, m, .skip)
  | .Bgtu, r, m => (bgtu r, m, .skip)
  | .Blt, r, m => (blt r, m, .skip)
  | .Bltu, r, m => (bltu r, m, .skip)
  | .Halt, r, m => (r, m, .halted)

/-- `execute` from src/Emulator/src/cpu_cycle.rs: `none` models the panic on an
unrecognized opcode. -/
def execute (opcode : Nat) (regs : Registers) (mem : Memory) :
    Option (Registers × Memory × Outcome) :=
  match opcodeOfNat opcode with
  | some oc => some (execInstr oc regs mem)
  | none => none

/-- One fetch-decode-execute step, with the pc-update discipline of the driver
loop: `normal` increments pc (u16 wrap), `skip` leaves pc as execute set it,
`halted` stops (the final state is kept). `none` models a panic. -/
def stepFn (regs : Registers) (mem : Memory) : Option (Registers × Memory) :=
  let regs := { regs with ir := fetch regs.pc mem }
  let opcode := decode regs.ir
  match execute opcode regs mem with
  | none => none
  | some (r, m, .normal) => some ({ r with pc := (r.pc + 1) % 65536 }, m)
  | some (r, m, .skip) => some (r, m)
  | some (r, m, .halted) => some (r, m)

/-- States reachable from the reset state `Registers.new` over an initial memory
image `mem0` by executing instructions. -/
inductive Reach (mem0 : Memory) : Registers → Memory → Prop where
  | init : Reach mem0 Registers.new mem0
  | step {r m r' m'} : Reach mem0 r m → stepFn r m = some (r', m') → Reach mem0 r' m'

/-! ## Assembler: parser and mnemonic encoders
(src/Assembler/src/{parser,encoder,symbols}.rs). Source lines are modelled as
`List Char`. -/

/-- Rust `x as u8` for a signed value: two's complement wrap into 0..255. -/
def toU8 (v : Int) : Nat := (v.emod 256).toNat

/-- Whitespace predicate used by `str::trim`. -/
def isWsChar (c : Char) : Bool := c == ' ' || c == '\t' || c == '\n' || c == '\r'

/-- `str::trim`: drop whitespace at both ends. -/
def trimChars (l : List Char) : List Char :=
  ((l.dropWhile isWsChar).reverse.dropWhile isWsChar).reverse

/-- `str::split(sep)`: split on a separator character, keeping empty pieces. -/
def splitOnChar (sep : Char) : List Char → List (List Char)
  | [] => [[]]
  | c :: rest =>
    let r := splitOnChar sep rest
    if c == sep then [] :: r
    else
      match r with
      | [] => [[c]]
      | h :: t => (c :: h) :: t

/-- First-character test, as `str::starts_with` with a char predicate. -/
def startsWithPred (p : Char → Bool) : List Char → Bool
  | [] => false
  | c :: _ => p c

/-- Decimal digit accumulation of Rust's integer `FromStr`. -/
def digitsVal : List Char → Option Nat
  | [] => none
  | l =>
    if l.all Char.isDigit then
      some (l.foldl (fun a c => a * 10 + (c.toNat - 48)) 0)
    else none

/-- Rust `str::parse` for a bounded signed integer type: optional sign, at least
one digit, value within `[lo, hi]`. -/
def parseIntRange (lo hi : Int) (s : List Char) : Option Int :=
  match s with
  | [] => none
  | c :: rest =>
    let p := if c == '+' then ((1 : Int), rest)
             else if c == '-' then ((-1 : Int), rest)
             else (1, c :: rest)
    match digitsVal p.2 with
    | none => none
    | some n =>
      let v := p.1 * (n : Int)
      if lo ≤ v ∧ v ≤ hi then some v else none

inductive Section where
  | Code
  | Data
deriving DecidableEq

/-- The error taxonomy of src/Assembler/src/err_handler.rs. -/
inductive LineError where
  | LabelMultiple (line : Nat)
  | LabelMoreColon (name : List Char) (line : Nat)
  | LabelWhitespace (name : List Char) (line : Nat)
  | OnlyDataSection
  | NoSectionDecl
  | WrongSection (text : List Char) (line : Nat)
  | SectionMismatch (line : Nat)
  | WrongArgs (op : String) (line : Nat)
  | StartWithHash (line : Nat)
  | StartWithAmp (line : Nat)
  | Unrecognized (tok : List Char) (line : Nat)
deriving DecidableEq

/-- `LineContent` from src/Assembler/src/parser.rs. -/
inductive LineContent where
  | Label (name : List Char)
  | Instruction (m : List Char) (args : List (List Char))
  | Data (bytes : List Nat)
  | Sect (s : Section)
  | NonRelevant
deriving DecidableEq

/-- `Symbols` from src/Assembler/src/symbols.rs (the label map as an association
list). -/
structure Symbols where
  labels : List (List Char × Nat)
  code_section : Option Nat × Option Nat
  data_section : Option Nat × Option Nat

def Symbols.new : Symbols :=
  { labels := [], code_section := (none, none), data_section := (none, none) }

def lookupLabel : List (List Char × Nat) → List Char → Option Nat
  | [], _ => none
  | (k, v) :: rest, name => if k = name then some v else lookupLabel rest name

namespace Asm

/-- `REGISTERS` look-up table from src/Assembler/src/encoder.rs. -/
def REGISTERS (r : List Char) : Option Nat :=
  if r = "r0".toList then some 0
  else if r = "r1".toList then some 1
  else if r = "r2".toList then some 2
  else if r = "r3".toList then some 3
  else if r = "r4".toList then some 4
  else if r = "r5".toList then some 5
  else if r = "r6".toList then some 6
  else if r = "r7".toList then some 7
  else if r = "fp".toList then some 4
  else if r = "sp".toList then some 5
  else if r = "lr".toList then some 6
  else if r = "mbr".toList then some 7
  else none

def get_valid_reg (r : List Char) (line_num : Nat) : Except LineError Nat :=
  match REGISTERS r with
  | some val => .ok val
  | none => .error (.Unrecognized r line_num)

/-- `get_valid_imm`: requires a leading `#`, parses the rest as `i8`, returns it
reinterpreted as `u8`. -/
def get_valid_imm (c : List Char) (line_num : Nat) : Except LineError Nat :=
  if startsWithPred (fun x => x == '#') c then
    match parseIntRange (-128) 127 (c.drop 1) with
    | some v => .ok (toU8 v)
    | none => .error (.Unrecognized c line_num)
  else .error (.StartWithHash line_num)

def get_valid_label (label : List Char) (syms : Symbols) (line_num : Nat) :
    Except LineError Nat :=
  match lookupLabel syms.labels label with
  | some l => .ok l
  | none => .error (.Unrecognized label line_num)

def check_args_len (ok : Bool) (op : String) (line_num : Nat) : Except LineError Unit :=
  if !ok then .error (.WrongArgs op line_num) else .ok ()

def arg (args : List (List Char)) (i : Nat) : List Char := args.getD i []

def mov (args : List (List Char)) (_ : Symbols) (line_num : Nat) :
    Except LineError (List Nat) := do
  check_args_len (args.length == 2) "mov" line_num
  let reg_dst ← get_valid_reg (arg args 0) line_num
  if startsWithPred (fun x => x == '#') (arg args 1) then
    let constant ← get_valid_imm (arg args 1) line_num
    return encode (.T1 0x00 reg_dst constant)
  else
    match REGISTERS (arg args 1) with
    | some val => return encode (.T2 0x01 reg_dst val UNUSED)
    | none => throw (.Unrecognized (arg args 1) line_num)

def lda (args : List (List Char)) (syms : Symbols) (line_num : Nat) :
    Except LineError (List Nat) := do
  check_args_len (args.length == 1) "lda" line_num
  let label ← get_valid_label (arg args 0) syms line_num
  return encode (.T3 0x02 label)

def ldr (args : List (List Char)) (_ : Symbols) (line_num : Nat) :
    Except LineError (List Nat) := do
  check_args_len (args.length == 2 || args.length == 3) "ldr" line_num
  let reg_dst ← get_valid_reg (arg args 0) line_num
  if startsWithPred (fun x => x == '&') (arg args 1) then
    let reg_adr ← get_valid_reg ((arg args 1).drop 1) line_num
    let offset ← if args.length == 3 then get_valid_imm (arg args 2) line_num
                 else pure 0
    return encode (.T2 0x03 reg_dst reg_adr offset)
  else throw (.StartWithAmp line_num)

def stra (args : List (List Char)) (syms : Symbols) (line_num : Nat) :
    Except LineError (List Nat) := do
  check_args_len (args.length == 1) "stra" line_num
  let label ← get_valid_label (arg args 0) syms line_num
  return encode (.T3 0x04 label)

def strr (args : List (List Char)) (_ : Symbols) (line_num : Nat) :
    Except LineError (List Nat) := do
  check_args_len (args.length == 2 || args.length == 3) "strr" line_num
  let reg_dst ← get_valid_reg (arg args 0) line_num
  if startsWithPred (fun x => x == '&') (arg args 1) then
    let reg_adr ← get_valid_reg ((arg args 1).drop 1) line_num
    let offset ← if args.length == 3 && startsWithPred (fun x => x == '#') (arg args 2) then
                   get_valid_imm (arg args 2) line_num
                 else pure 0
    return encode (.T2 0x05 reg_dst reg_adr offset)
  else throw (.StartWithAmp line_num)

def push (args : List (List Char)) (_ : Symbols) (line_num : Nat) :
    Except LineError (List Nat) := do
  check_args_len (args.length ≥ 1 && args.length ≤ 3) "push/pop operation" line_num
  let reg_a ← get_valid_reg (arg args 0) line_num
  let reg_b ← if args.length == 2 || args.length == 3 then
                get_valid_reg (arg args 1) line_num
              else pure 0
  let reg_c ← if args.length == 3 then get_valid_reg (arg args 2) line_num
              else pure 0
  return encode (.T4 0x06 reg_a reg_b reg_c)

/-- `pop`: same as `push`, then OR bit 3 into the MSB byte (opcode + 1). -/
def pop (args : List (List Char)) (_ : Symbols) (line_num : Nat) :
    Except LineError (List Nat) := do
  let bytes ← push args Symbols.new line_num
  return (bytes.getD 0 0 ||| 8) :: bytes.drop 1

def add (args : List (List Char)) (_ : Symbols) (line_num : Nat) :
    Except LineError (List Nat) := do
  check_args_len (args.length == 3) "add" line_num
  let reg_dst ← get_valid_reg (arg args 0) line_num
  let reg_a ← get_valid_reg (arg args 1) line_num
  if startsWithPred (fun x => x == '#') (arg args 2) then
    let constant ← get_valid_imm (arg args 2) line_num
    return encode (.T2 0x08 reg_dst reg_a constant)
  else
    match REGISTERS (arg args 2) with
    | some val => return encode (.T4 0x09 reg_dst reg_a val)
    | none => throw (.Unrecognized (arg args 2) line_num)

def sub (args : List (List Char)) (_ : Symbols) (line_num : Nat) :
    Except LineError (List Nat) := do
  check_args_len (args.length == 3) "sub" line_num
  let reg_dst ← get_valid_reg (arg args 0) line_num
  let reg_a ← get_valid_reg (arg args 1) line_num
  if startsWithPred (fun x => x == '#') (arg args 2) then
    let constant ← get_valid_imm (arg args 2) line_num
    return encode (.T2 0x0A reg_dst reg_a constant)
  else
    match REGISTERS (arg args 2) with
    | some val => return encode (.T4 0x0B reg_dst reg_a val)
    | none => throw (.Unrecognized (arg args 2) line_num)

def shl (args : List (List Char)) (_ : Symbols) (line_num : Nat) :
    Except LineError (List Nat) := do
  check_args_len (args.length == 3) "shift" line_num
  let reg_dst ← get_valid_reg (arg args 0) line_num
  let reg_src ← get_valid_reg (arg args 1) line_num
  if startsWithPred (fun x => x == '#') (arg args 2) then
    let constant ← get_valid_imm (arg args 2) line_num
    return encode (.T5 0x0C reg_dst reg_src constant)
  else throw (.StartWithHash line_num)

/-- `shr`: same as `shl`, then OR bit 3 into the MSB byte (opcode + 1). -/
def shr (args : List (List Char)) (_ : Symbols) (line_num : Nat) :
    Except LineError (List Nat) := do
  let bytes ← shl args Symbols.new line_num
  return (bytes.getD 0 0 ||| 8) :: bytes.drop 1

def and (args : List (List Char)) (_ : Symbols) (line_num : Nat) :
    Except LineError (List Nat) := do
  check_args_len (args.length == 3) "logical operation" line_num
  let reg_dst ← get_valid_reg (arg args 0) line_num
  let reg_a ← get_valid_reg (arg args 1) line_num
  let reg_b ← get_valid_reg (arg args 2) line_num
  return encode (.T4 0x0E reg_dst reg_a reg_b)

/-- `or`: same as `and`, then OR bit 3 into the MSB byte (opcode + 1). -/
def or (args : List (List Char)) (_ : Symbols) (line_num : Nat) :
    Except LineError (List Nat) := do
  let bytes ← and args Symbols.new line_num
  return (bytes.getD 0 0 ||| 8) :: bytes.drop 1

def not (args : List (List Char)) (_ : Symbols) (line_num : Nat) :
    Except LineError (List Nat) := do
  check_args_len (args.length == 2) "not" line_num
  let reg_dst ← get_valid_reg (arg args 0) line_num
  let reg_src ← get_valid_reg (arg args 1) line_num
  return encode (.T2 0x10 reg_dst reg_src UNUSED)

def jmp (args : List (List Char)) (syms : Symbols) (line_num : Nat) :
    Except LineError (List Nat) := do
  check_args_len (args.length == 1) "jmp" line_num
  let label ← get_valid_label (arg args 0) syms line_num
  return encode (.T3 0x11 label)

def bln (args : List (List Char)) (syms : Symbols) (line_num : Nat) :
    Except LineError (List Nat) := do
  check_args_len (args.length == 1) "bln" line_num
  let label ← get_valid_label (arg args 0) syms line_num
  return encode (.T3 0x12 label)

def ret (args : List (List Char)) (_ : Symbols) (line_num : Nat) :
    Except LineError (List Nat) := do
  check_args_len (args.length == 0) "ret" line_num
  return encode (.T3 0x13 UNUSED)

def cmp (args : List (List Char)) (_ : Symbols) (line_num : Nat) :
    Except LineError (List Nat) := do
  check_args_len (args.length == 2) "cmp" line_num
  let reg_a ← get_valid_reg (arg args 0) line_num
  if startsWithPred (fun x => x == '#') (arg args 1) then
    let constant ← get_valid_imm (arg args 1) line_num
    return encode (.T1 0x14 reg_a constant)
  else
    match REGISTERS (arg args 1) with
    | some val => return encode (.T2 0x15 reg_a val UNUSED)
    | none => throw (.Unrecognized (arg args 1) line_num)

def beq (args : List (List Char)) (syms : Symbols) (line_num : Nat) :
    Except LineError (List Nat) := do
  check_args_len (args.length == 1) "beq" line_num
  let label ← get_valid_label (arg args 0) syms line_num
  return encode (.T3 0x16 label)

def bne (args : List (List Char)) (syms : Symbols) (line_num : Nat) :
    Except LineError (List Nat) := do
  check_args_len (args.length == 1) "bne" line_num
  let label ← get_valid_label (arg args 0) syms line_num
  return encode (.T3 0x17 label)

def bgt (args : List (List Char)) (syms : Symbols) (line_num : Nat) :
    Except LineError (List Nat) := do
  check_args_len (args.length == 1) "bgt" line_num
  let label ← get_valid_label (arg args 0) syms line_num
  return encode (.T3 0x18 label)

def bgtu (args : List (List Char)) (syms : Symbols) (line_num : Nat) :
    Except LineError (List Nat) := do
  check_args_len (args.length == 1) "bgtu" line_num
  let label ← get_valid_label (arg args 0) syms line_num
  return encode (.T3 0x19 label)

def blt (args : List (List Char)) (syms : Symbols) (line_num : Nat) :
    Except LineError (List Nat) := do
  check_args_len (args.length == 1) "blt" line_num
  let label ← get_valid_label (arg args 0) syms line_num
  return encode (.T3 0x1A label)

def bltu (args : List (List Char)) (syms : Symbols) (line_num : Nat) :
    Except LineError (List Nat) := do
  check_args_len (args.length == 1) "bltu" line_num
  let label ← get_valid_label (arg args 0) syms line_num
  return encode (.T3 0x1B label)

def halt (args : List (List Char)) (_ : Symbols) (line_num : Nat) :
    Except LineError (List Nat) := do
  check_args_len (args.length == 0) "halt" line_num
  return encode (.T3 0x1C UNUSED)

/-- The `MNEMONICS` look-up table from src/Assembler/src/encoder.rs. -/
def MNEMONICS (m : List Char) :
    Option (List (List Char) → Symbols → Nat → Except LineError (List Nat)) :=
  if m = "mov".toList then some mov
  else if m = "lda".toList then some lda
  else if m = "ldr".toList then some ldr
  else if m = "stra".toList then some stra
  else if m = "strr".toList then some strr
  else if m = "push".toList then some push
  else if m = "pop".toList then some pop
  else if m = "add".toList then some add
  else if m = "sub".toList then some sub
  else if m = "shl".toList then some shl
  else if m = "shr".toList then some shr
  else if m = "and".toList then some and
  else if m = "or".toList then some or
  else if m = "not".toList then some not
  else if m = "jmp".toList then some jmp
  else if m = "bln".toList then some bln
  else if m = "ret".toList then some ret
  else if m = "cmp".toList then some cmp
  else if m = "beq".toList then some beq
  else if m = "bne".toList then some bne
  else if m = "bgt".toList then some bgt
  else if m = "bgtu".toList then some bgtu
  else if m = "blt".toList then some blt
  else if m = "bltu".toList then some bltu
  else if m = "halt".toList then some halt
  else none

end Asm

/-! ## Assembler: line classification (src/Assembler/src/parser.rs) -/

namespace Asm

/-- `trim_comments`: truncate the argument list at the first token starting
with `//`, then drop blank tokens. -/
def truncAtComment : List (List Char) → List (List Char)
  | [] => []
  | a :: rest =>
    if List.isPrefixOf "//".toList a then []
    else a :: truncAtComment rest

def trim_comments (args : List (List Char)) : List (List Char) :=
  (truncAtComment args).filter (fun s => (trimChars s).length != 0)

def containsSeq (pat : List Char) : List Char → Bool
  | [] => List.isPrefixOf pat []
  | c :: rest => List.isPrefixOf pat (c :: rest) || containsSeq pat rest

def parsed_section (line : List Char) (line_num : Nat) : Except LineError LineContent :=
  if containsSeq "Code".toList line || containsSeq "code".toList line then
    .ok (.Sect .Code)
  else if containsSeq "Data".toList line || containsSeq "data".toList line then
    .ok (.Sect .Data)
  else .error (.WrongSection (trimChars line) line_num)

/-- `replace_control_ascii`: the two-character sequences `\n` and `\t` collapse
to the single control characters 0x0A and 0x09. -/
def replace_control_ascii : List Char → List Char
  | [] => []
  | '\\' :: 'n' :: rest => Char.ofNat 10 :: replace_control_ascii rest
  | '\\' :: 't' :: rest => Char.ofNat 9 :: replace_control_ascii rest
  | c :: rest => c :: replace_control_ascii rest

/-- The msb/lsb emission loop at the end of `parsed_data`: each 16-bit value
becomes two bytes, MSB first. -/
def bytesOfWords : List Nat → List Nat
  | [] => []
  | d :: rest => ((d >>> 8) % 256) :: (d % 256) :: bytesOfWords rest

/-- `str::trim_matches('"')`: strip quote characters from both ends. -/
def trimQuotes (l : List Char) : List Char :=
  ((l.dropWhile (fun c => c == '"')).reverse.dropWhile (fun c => c == '"')).reverse

def parsed_data (line : List Char) (line_num : Nat) : Except LineError LineContent :=
  if startsWithPred (fun c => c == '"') line then
    let char_arr := replace_control_ascii (trimQuotes line) ++ [Char.ofNat 0]
    .ok (.Data (bytesOfWords (char_arr.map Char.toNat)))
  else if startsWithPred Char.isDigit line then
    let data := (splitOnChar ',' line).map (fun s =>
      match parseIntRange (-32768) 32767 (trimChars s) with
      | some v => toU16 v
      | none => toU16 0)
    .ok (.Data (bytesOfWords data))
  else .error (.Unrecognized line line_num)

def parsed_label (line : List Char) (line_num : Nat) : Except LineError LineContent :=
  if line.count ':' > 1 then .error (.LabelMoreColon (trimChars line) line_num)
  else
    let l := line.dropLast
    if l.contains ' ' || l.contains '\t' then .error (.LabelWhitespace l line_num)
    else .ok (.Label l)

def parsed_instruction (line : List Char) (line_num : Nat) :
    Except LineError LineContent :=
  let instr := splitOnChar ' ' line
  if instr.length ≥ 1 && (instr.getD 0 []).all (fun c => c.toNat < 128) then
    .ok (.Instruction ((instr.getD 0 []).map Char.toLower) (instr.drop 1))
  else .error (.Unrecognized (trimChars line) line_num)

/-- `parse_line` from src/Assembler/src/parser.rs: classify one trimmed source
line, in priority order blank → section → data → label → instruction. -/
def parse_line (line : List Char) (line_num : Nat) : Except LineError LineContent :=
  let line := trimChars line
  if List.isPrefixOf "//".toList line || line.isEmpty then .ok .NonRelevant
  else if List.isPrefixOf ".section".toList line then parsed_section line line_num
  else if startsWithPred (fun x => x == '"' || x.isDigit) line then
    parsed_data line line_num
  else if line.contains ':' then parsed_label line line_num
  else parsed_instruction line line_num

/-- The code-section arm of `assemble_program`: classify the line; instructions
are encoded through the `MNEMONICS` table (with comment-trimmed arguments),
data lines are a section mismatch, all other lines emit nothing. -/
def assembleCodeLine (line : List Char) (syms : Symbols) (idx : Nat) :
    Except LineError (List Nat) :=
  match parse_line line idx with
  | .ok (.Instruction m args) =>
    match MNEMONICS m with
    | some f => f (trim_comments args) syms idx
    | none => .error (.Unrecognized m idx)
  | .ok (.Data _) => .error (.SectionMismatch idx)
  | .ok _ => .ok []
  | .error e => .error e

end Asm

instance {e a : Type} [DecidableEq e] [DecidableEq a] : DecidableEq (Except e a) :=
  fun x y =>
    match x, y with
    | .ok v, .ok w =>
      if h : v = w then .isTrue (by rw [h])
      else .isFalse (by intro hc; cases hc; exact h rfl)
    | .ok _, .error _ => .isFalse (by intro hc; cases hc)
    | .error _, .ok _ => .isFalse (by intro hc; cases hc)
    | .error v, .error w =>
      if h : v = w then .isTrue (by rw [h])
      else .isFalse (by intro hc; cases hc; exact h rfl)

/-! ## Claim C9 -/

/-- C9: for every executed ldr (LoadRg) and strr (StrRg) instruction, the memory
address used is the 3-bit register-index field extracted from the instruction
word (a value in 0..7) plus the offset field, not the contents `gp[index]` of
the addressed register; the addressed register's runtime value never influences
the effective address. -/
theorem c9_load_store_use_index_not_contents (s : Registers) (mem : Memory) :
    extract_bits s.ir REG_ADDR_SIZE REG_POS1_ROFFSET < 8 ∧
    load_rg s mem =
      { s with gp := (updGp s.gp (extract_bits s.ir REG_ADDR_SIZE REG_POS0_ROFFSET)
          (toI16 (mem (extract_bits s.ir REG_ADDR_SIZE REG_POS1_ROFFSET +
                       extract_bits s.ir MEM_OFFSET_SIZE MEM_OFFSET_ROFFSET)))) } ∧
    store_rg s mem =
      updMem mem (extract_bits s.ir REG_ADDR_SIZE REG_POS1_ROFFSET +
                  extract_bits s.ir MEM_OFFSET_SIZE MEM_OFFSET_ROFFSET)
        (toU16 (s.gp (extract_bits s.ir REG_ADDR_SIZE REG_POS0_ROFFSET))) ∧
    (∀ g : Nat → Int,
      load_rg { s with gp := g } mem =
        { s with gp := (updGp g (extract_bits s.ir REG_ADDR_SIZE REG_POS0_ROFFSET)
            (toI16 (mem (extract_bits s.ir REG_ADDR_SIZE REG_POS1_ROFFSET +
                         extract_bits s.ir MEM_OFFSET_SIZE MEM_OFFSET_ROFFSET)))) } ∧
      store_rg { s with gp := g } mem =
        updMem mem (extract_bits s.ir REG_ADDR_SIZE REG_POS1_ROFFSET +
                    extract_bits s.ir MEM_OFFSET_SIZE MEM_OFFSET_ROFFSET)
          (toU16 (g (extract_bits s.ir REG_ADDR_SIZE REG_POS0_ROFFSET)))) := by
  refine ⟨?_, rfl, rfl, fun g => ⟨rfl, rfl⟩⟩
  have h := extract_bits_lt s.ir REG_ADDR_SIZE REG_POS1_ROFFSET (by norm_num [REG_ADDR_SIZE])
  simpa [REG_ADDR_SIZE] using h

/-! ## Claim C2 -/

/-- C2 (code bug): executing one fetch-decode-execute step on a `beq` whose
predicate is false (flags = 0, so ZR is clear) leaves pc at its old value 5
instead of advancing to 6: the execute stage returns the skip-pc-increment
outcome for conditional branches even when the branch is not taken, so the pc
neither jumps nor advances. The word 45056 is 0xB000, opcode 22 = Beq,
label 0. -/
theorem c2_branch_not_taken_pc_frozen :
    (stepFn { gp := fun _ => 0, pc := 5, acc := 0, ir := 0, mar := 0, flags := 0 }
        (fun _ => 45056)).map (fun p => p.1.pc) = some 5 ∧
    decode 45056 = 22 ∧ opcodeOfNat 22 = some Opcode.Beq ∧
    read_flag .ZR 0 = false ∧ (5 : Nat) ≠ 5 + 1 := by
  refine ⟨?_, ?_, ?_, ?_, ?_⟩
  · decide
  · decide
  · decide
  · decide
  · omega

/-! ## Claim C4 -/

/-- C4 (code bug): the assembler's push encoder on the single register `r1`
emits bytes `31 00` (word 12544), whose 2-bit `num` field (the bits the
emulator's push loop iterates over) is 0. Executing the emulator's push on that
word therefore pushes nothing: sp (gp[5], here 100) is not decremented and the
stack cell 99 is not written with gp[1] = 7; pop likewise restores nothing.
The claim that the pushed registers round-trip is therefore false. -/
theorem c4_push_pop_roundtrip_fails :
    Asm.push ["r1".toList] Symbols.new 0 = .ok [49, 0] ∧
    wordOfBytes [49, 0] = 12544 ∧
    extract_bits 12544 PUSHPOP_NUM_SIZE PUSHPOP_NUM_ROFFSET = 0 ∧
    (push { gp := fun i => if i = 5 then 100 else 7, pc := 0, acc := 0,
            ir := 12544, mar := 0, flags := 0 } (fun _ => 0)).1.gp 5 = 100 ∧
    (push { gp := fun i => if i = 5 then 100 else 7, pc := 0, acc := 0,
            ir := 12544, mar := 0, flags := 0 } (fun _ => 0)).2 99 = 0 ∧
    (pop { gp := fun i => if i = 5 then 100 else 7, pc := 0, acc := 0,
           ir := 12544, mar := 0, flags := 0 } (fun _ => 0)).gp 5 = 100 ∧
    (100 : Int) ≠ 99 ∧ (0 : Nat) ≠ 7 := by
  refine ⟨by decide, rfl, by decide, rfl, rfl, rfl, by omega, by omega⟩

/-! ## Claim C7 -/

/-- C7 counterexample: the assembler encodes `mov r1 r0` to bytes `09 00`
(9, 0), not the claimed `0B 00` (11, 0), and `add r2 r0 r1` to `4A 04`
(74, 4), not the claimed `4A 20` (74, 32). -/
theorem c7_counterexample :
    Asm.assembleCodeLine "mov r1 r0".toList Symbols.new 0 = .ok [9, 0] ∧
    ¬ Asm.assembleCodeLine "mov r1 r0".toList Symbols.new 0 = .ok [11, 0] ∧
    Asm.assembleCodeLine "add r2 r0 r1".toList Symbols.new 0 = .ok [74, 4] ∧
    ¬ Asm.assembleCodeLine "add r2 r0 r1".toList Symbols.new 0 = .ok [74, 32] := by
  refine ⟨by decide, by decide, by decide, by decide⟩

/-- C7 (amended): `mov r1 r0` encodes to bytes `09 00` (opcode 1 at bit 11,
rd=1 at bit 8, rs=0 at bit 5) and `add r2 r0 r1` encodes to bytes `4A 04`
(opcode 9, rd=2, rA=0, rB=1 with the rB field shifted by 2), as confirmed by
re-extracting each field from the assembled words. -/
theorem c7_worked_examples :
    Asm.assembleCodeLine "mov r1 r0".toList Symbols.new 0 = .ok [9, 0] ∧
    decode (wordOfBytes [9, 0]) = 1 ∧
    extract_bits (wordOfBytes [9, 0]) REG_ADDR_SIZE REG_POS0_ROFFSET = 1 ∧
    extract_bits (wordOfBytes [9, 0]) REG_ADDR_SIZE REG_POS1_ROFFSET = 0 ∧
    Asm.assembleCodeLine "add r2 r0 r1".toList Symbols.new 0 = .ok [74, 4] ∧
    decode (wordOfBytes [74, 4]) = 9 ∧
    extract_bits (wordOfBytes [74, 4]) REG_ADDR_SIZE REG_POS0_ROFFSET = 2 ∧
    extract_bits (wordOfBytes [74, 4]) REG_ADDR_SIZE REG_POS1_ROFFSET = 0 ∧
    extract_bits (wordOfBytes [74, 4]) REG_ADDR_SIZE REG_POS2_ROFFSET = 1 := by
  refine ⟨by decide, by decide, by decide, by decide, by decide, by decide,
          by decide, by decide, by decide⟩

/-! ## Claim C6 -/

/-- A register state whose gp file holds `x` in slot 0 and `y` in slot 1, with
`ir = 4` so that `sub_rg` reads operand A from slot 0 and operand B from
slot 1 (and writes its result to slot 0). Used to compare cmp against the sub
instruction on the same two operand values. -/
def subOperandState (x y : Int) (s : Registers) : Registers :=
  { gp := fun i => if i = 1 then y else x, pc := s.pc, acc := s.acc, ir := 4,
    mar := s.mar, flags := s.flags }

/-- C6: cmp (immediate and register variants) leaves every general-purpose
register unchanged, and produces exactly the flags byte that the sub
instruction (`sub_rg`) would produce from the same two operand values and the
same incoming flags byte. -/
theorem c6_cmp_flags_equal_sub (s : Registers) :
    ((cmp_im s).gp = s.gp ∧
      (cmp_im s).flags =
        (sub_rg (subOperandState
          (s.gp (extract_bits s.ir REG_ADDR_SIZE REG_POS0_ROFFSET))
          (Int.ofNat (extract_bits s.ir B8_CONSTANT_SIZE B8_CONSTANT_ROFFSET))
          s)).flags) ∧
    ((cmp_rg s).gp = s.gp ∧
      (cmp_rg s).flags =
        (sub_rg (subOperandState
          (s.gp (extract_bits s.ir REG_ADDR_SIZE REG_POS0_ROFFSET))
          (s.gp (extract_bits s.ir REG_ADDR_SIZE REG_POS1_ROFFSET))
          s)).flags) := by
  have h0 : extract_bits 4 REG_ADDR_SIZE REG_POS1_ROFFSET = 0 := by decide
  have h1 : extract_bits 4 REG_ADDR_SIZE REG_POS2_ROFFSET = 1 := by decide
  constructor
  · constructor
    · simp only [cmp_im]
      cases hc : checkedSub (s.gp (extract_bits s.ir REG_ADDR_SIZE REG_POS0_ROFFSET))
          (Int.ofNat (extract_bits s.ir B8_CONSTANT_SIZE B8_CONSTANT_ROFFSET)) with
      | none => simp [hc]
      | some v => simp only [hc]; split_ifs <;> rfl
    · simp only [cmp_im, sub_rg, subOperandState, h0, h1]
      norm_num
      cases hc : checkedSub (s.gp (extract_bits s.ir REG_ADDR_SIZE REG_POS0_ROFFSET))
          (Int.ofNat (extract_bits s.ir B8_CONSTANT_SIZE B8_CONSTANT_ROFFSET)) with
      | none => simp [hc]
      | some v => simp only [hc]; split_ifs <;> simp
  · constructor
    · simp only [cmp_rg]
      cases hc : checkedSub (s.gp (extract_bits s.ir REG_ADDR_SIZE REG_POS0_ROFFSET))
          (s.gp (extract_bits s.ir REG_ADDR_SIZE REG_POS1_ROFFSET)) with
      | none => simp [hc]
      | some v => simp only [hc]; split_ifs <;> rfl
    · simp only [cmp_rg, sub_rg, subOperandState, h0, h1]
      norm_num
      cases hc : checkedSub (s.gp (extract_bits s.ir REG_ADDR_SIZE REG_POS0_ROFFSET))
          (s.gp (extract_bits s.ir REG_ADDR_SIZE REG_POS1_ROFFSET)) with
      | none => simp [hc]
      | some v => simp only [hc]; split_ifs <;> simp

/-! ## Claim C1 -/

theorem encodeT1_word (op r c : Nat) (hop : op < 32) (hr : r < 8) (_hc : c < 256) :
    wordOfBytes (encode (.T1 op r c)) = 2048 * op + 256 * r + c := by
  have ha : op <<< 11 = 2 ^ 11 * op := by rw [Nat.shiftLeft_eq, mul_comm]
  have hb : r <<< 8 = 2 ^ 8 * r := by rw [Nat.shiftLeft_eq, mul_comm]
  have m1 : 2 ^ 11 * op % 65536 = 2 ^ 11 * op := Nat.mod_eq_of_lt (by omega)
  have m2 : 2 ^ 8 * r % 65536 = 2 ^ 8 * r := Nat.mod_eq_of_lt (by omega)
  have hor1 : 2 ^ 11 * op ||| 2 ^ 8 * r = 2 ^ 11 * op + 2 ^ 8 * r :=
    (Nat.mul_add_lt_is_or (by omega) op).symm
  simp only [encode, wordOfBytes, ha, hb, m1, m2, hor1, Nat.shiftRight_eq_div_pow]
  omega

theorem encodeT2_word (op rp0 rp1 f : Nat)
    (hop : op < 32) (h0 : rp0 < 8) (h1 : rp1 < 8) (hf : f < 32) :
    wordOfBytes (encode (.T2 op rp0 rp1 f)) = 2048 * op + 256 * rp0 + 32 * rp1 + f := by
  have ha : op <<< 11 = 2 ^ 11 * op := by rw [Nat.shiftLeft_eq, mul_comm]
  have hb : rp0 <<< 8 = 2 ^ 8 * rp0 := by rw [Nat.shiftLeft_eq, mul_comm]
  have hcc : rp1 <<< 5 = 2 ^ 5 * rp1 := by rw [Nat.shiftLeft_eq, mul_comm]
  have m1 : 2 ^ 11 * op % 65536 = 2 ^ 11 * op := Nat.mod_eq_of_lt (by omega)
  have m2 : 2 ^ 8 * rp0 % 65536 = 2 ^ 8 * rp0 := Nat.mod_eq_of_lt (by omega)
  have m3 : 2 ^ 5 * rp1 % 65536 = 2 ^ 5 * rp1 := Nat.mod_eq_of_lt (by omega)
  have hor1 : 2 ^ 11 * op ||| 2 ^ 8 * rp0 = 2 ^ 11 * op + 2 ^ 8 * rp0 :=
    (Nat.mul_add_lt_is_or (by omega) op).symm
  have hor2 : 2 ^ 5 * rp1 ||| f = 2 ^ 5 * rp1 + f :=
    (Nat.mul_add_lt_is_or hf rp1).symm
  simp only [encode, wordOfBytes, ha, hb, hcc, m1, m2, m3, hor1, hor2,
             Nat.shiftRight_eq_div_pow]
  omega

theorem encodeT3_word (op f2 : Nat) (hop : op < 32) (hf : f2 < 2048) :
    wordOfBytes (encode (.T3 op f2)) = 2048 * op + f2 := by
  have ha : op <<< 11 = 2 ^ 11 * op := by rw [Nat.shiftLeft_eq, mul_comm]
  have m1 : 2 ^ 11 * op % 65536 = 2 ^ 11 * op := Nat.mod_eq_of_lt (by omega)
  have hor1 : 2 ^ 11 * op ||| f2 = 2 ^ 11 * op + f2 :=
    (Nat.mul_add_lt_is_or (by omega) op).symm
  simp only [encode, wordOfBytes, ha, m1, hor1, Nat.shiftRight_eq_div_pow]
  omega

theorem encodeT4_word (op rp0 rp1 rp2 : Nat)
    (hop : op < 32) (h0 : rp0 < 8) (h1 : rp1 < 8) (h2 : rp2 < 8) :
    wordOfBytes (encode (.T4 op rp0 rp1 rp2)) =
      2048 * op + 256 * rp0 + 32 * rp1 + 4 * rp2 := by
  have ha : op <<< 11 = 2 ^ 11 * op := by rw [Nat.shiftLeft_eq, mul_comm]
  have hb : rp0 <<< 8 = 2 ^ 8 * rp0 := by rw [Nat.shiftLeft_eq, mul_comm]
  have hcc : rp1 <<< 5 = 2 ^ 5 * rp1 := by rw [Nat.shiftLeft_eq, mul_comm]
  have hd : rp2 <<< 2 = 2 ^ 2 * rp2 := by rw [Nat.shiftLeft_eq, mul_comm]
  have m1 : 2 ^ 11 * op % 65536 = 2 ^ 11 * op := Nat.mod_eq_of_lt (by omega)
  have m2 : 2 ^ 8 * rp0 % 65536 = 2 ^ 8 * rp0 := Nat.mod_eq_of_lt (by omega)
  have m3 : 2 ^ 5 * rp1 % 65536 = 2 ^ 5 * rp1 := Nat.mod_eq_of_lt (by omega)
  have m4 : 2 ^ 2 * rp2 % 65536 = 2 ^ 2 * rp2 := Nat.mod_eq_of_lt (by omega)
  have hor1 : 2 ^ 11 * op ||| 2 ^ 8 * rp0 = 2 ^ 11 * op + 2 ^ 8 * rp0 :=
    (Nat.mul_add_lt_is_or (by omega) op).symm
  have hor2 : 2 ^ 5 * rp1 ||| 2 ^ 2 * rp2 = 2 ^ 5 * rp1 + 2 ^ 2 * rp2 :=
    (Nat.mul_add_lt_is_or (by omega) rp1).symm
  simp only [encode, wordOfBytes, ha, hb, hcc, hd, m1, m2, m3, m4, hor1, hor2,
             Nat.shiftRight_eq_div_pow]
  omega

theorem encodeT5_word (op rp0 rp1 c : Nat)
    (hop : op < 32) (h0 : rp0 < 8) (h1 : rp1 < 8) (hc : c < 16) :
    wordOfBytes (encode (.T5 op rp0 rp1 c)) =
      2048 * op + 256 * rp0 + 32 * rp1 + 2 * c := by
  have ha : op <<< 11 = 2 ^ 11 * op := by rw [Nat.shiftLeft_eq, mul_comm]
  have hb : rp0 <<< 8 = 2 ^ 8 * rp0 := by rw [Nat.shiftLeft_eq, mul_comm]
  have hcc : rp1 <<< 5 = 2 ^ 5 * rp1 := by rw [Nat.shiftLeft_eq, mul_comm]
  have hd : c <<< 1 = 2 ^ 1 * c := by rw [Nat.shiftLeft_eq, mul_comm]
  have m1 : 2 ^ 11 * op % 65536 = 2 ^ 11 * op := Nat.mod_eq_of_lt (by omega)
  have m2 : 2 ^ 8 * rp0 % 65536 = 2 ^ 8 * rp0 := Nat.mod_eq_of_lt (by omega)
  have m3 : 2 ^ 5 * rp1 % 65536 = 2 ^ 5 * rp1 := Nat.mod_eq_of_lt (by omega)
  have m4 : 2 ^ 1 * c % 65536 = 2 ^ 1 * c := Nat.mod_eq_of_lt (by omega)
  have hor1 : 2 ^ 11 * op ||| 2 ^ 8 * rp0 = 2 ^ 11 * op + 2 ^ 8 * rp0 :=
    (Nat.mul_add_lt_is_or (by omega) op).symm
  have hor2 : 2 ^ 5 * rp1 ||| 2 ^ 1 * c = 2 ^ 5 * rp1 + 2 ^ 1 * c :=
    (Nat.mul_add_lt_is_or (by omega) rp1).symm
  simp only [encode, wordOfBytes, ha, hb, hcc, hd, m1, m2, m3, m4, hor1, hor2,
             Nat.shiftRight_eq_div_pow]
  omega

/-- C1 counterexample: the immediate parser accepts `#-1` (yielding the u8
value 255), but packing `add r0 r0 #-1` (shape T2, opcode 8, rd=0, rA=0,
constant 255) and re-extracting the rA register field at the emulator's
(width, offset) constants yields 7, not the original register 0 (and
0 mod 2^3 = 0 ≠ 7): the 8-bit immediate bleeds into the adjacent register
field, so the claimed inversion fails for parser-accepted immediates that
exceed the field width. -/
theorem c1_counterexample :
    Asm.get_valid_imm "#-1".toList 0 = .ok 255 ∧
    Asm.add ["r0".toList, "r0".toList, "#-1".toList] Symbols.new 0 = .ok [64, 255] ∧
    encode (.T2 8 0 0 255) = [64, 255] ∧
    extract_bits (wordOfBytes [64, 255]) REG_ADDR_SIZE REG_POS1_ROFFSET = 7 ∧
    (7 : Nat) ≠ 0 % 2 ^ 3 := by
  refine ⟨by decide, by decide, by decide, by decide, by decide⟩

/-- C1 (amended): for every shape, packing the operands with the assembler's
`encode` and re-extracting each operand field with the emulator's
`extract_bits` at the same (width, offset) constants recovers every operand
exactly, provided each immediate fits its declared field width (8 bits for T1,
5 bits for the T2 constant/offset field, 11 bits for T3 labels, 4 bits for the
T5 shift immediate); register fields and opcodes are within range by
construction of the alias and mnemonic tables. -/
theorem c1_encode_extract_roundtrip
    (op rp0 rp1 rp2 c8 f5 lab c4 : Nat)
    (hop : op < 32) (h0 : rp0 < 8) (h1 : rp1 < 8) (h2 : rp2 < 8)
    (hc8 : c8 < 256) (hf5 : f5 < 32) (hlab : lab < 2048) (hc4 : c4 < 16) :
    (extract_bits (wordOfBytes (encode (.T1 op rp0 c8))) REG_ADDR_SIZE REG_POS0_ROFFSET = rp0 ∧
     extract_bits (wordOfBytes (encode (.T1 op rp0 c8))) B8_CONSTANT_SIZE B8_CONSTANT_ROFFSET = c8) ∧
    (extract_bits (wordOfBytes (encode (.T2 op rp0 rp1 f5))) REG_ADDR_SIZE REG_POS0_ROFFSET = rp0 ∧
     extract_bits (wordOfBytes (encode (.T2 op rp0 rp1 f5))) REG_ADDR_SIZE REG_POS1_ROFFSET = rp1 ∧
     extract_bits (wordOfBytes (encode (.T2 op rp0 rp1 f5))) B5_CONSTANT_SIZE B5_CONSTANT_ROFFSET = f5 ∧
     extract_bits (wordOfBytes (encode (.T2 op rp0 rp1 f5))) MEM_OFFSET_SIZE MEM_OFFSET_ROFFSET = f5) ∧
    (extract_bits (wordOfBytes (encode (.T3 op lab))) MEM_LABEL_SIZE MEM_LABEL_ROFFSET = lab) ∧
    (extract_bits (wordOfBytes (encode (.T4 op rp0 rp1 rp2))) REG_ADDR_SIZE REG_POS0_ROFFSET = rp0 ∧
     extract_bits (wordOfBytes (encode (.T4 op rp0 rp1 rp2))) REG_ADDR_SIZE REG_POS1_ROFFSET = rp1 ∧
     extract_bits (wordOfBytes (encode (.T4 op rp0 rp1 rp2))) REG_ADDR_SIZE REG_POS2_ROFFSET = rp2) ∧
    (extract_bits (wordOfBytes (encode (.T5 op rp0 rp1 c4))) REG_ADDR_SIZE REG_POS0_ROFFSET = rp0 ∧
     extract_bits (wordOfBytes (encode (.T5 op rp0 rp1 c4))) REG_ADDR_SIZE REG_POS1_ROFFSET = rp1 ∧
     extract_bits (wordOfBytes (encode (.T5 op rp0 rp1 c4))) B4_CONSTANT_SIZE B4_CONSTANT_ROFFSET = c4) := by
  have w1 := encodeT1_word op rp0 c8 hop h0 hc8
  have w2 := encodeT2_word op rp0 rp1 f5 hop h0 h1 hf5
  have w3 := encodeT3_word op lab hop hlab
  have w4 := encodeT4_word op rp0 rp1 rp2 hop h0 h1 h2
  have w5 := encodeT5_word op rp0 rp1 c4 hop h0 h1 hc4
  refine ⟨⟨?_, ?_⟩, ⟨?_, ?_, ?_, ?_⟩, ?_, ⟨?_, ?_, ?_⟩, ⟨?_, ?_, ?_⟩⟩ <;>
    first
    | (rw [w1, extract_bits_eq _ _ _ (by norm_num [REG_ADDR_SIZE, B8_CONSTANT_SIZE])]
       simp only [REG_ADDR_SIZE, REG_POS0_ROFFSET, B8_CONSTANT_SIZE, B8_CONSTANT_ROFFSET,
                  OPCODE_SIZE]
       omega)
    | (rw [w2, extract_bits_eq _ _ _
          (by norm_num [REG_ADDR_SIZE, B5_CONSTANT_SIZE, MEM_OFFSET_SIZE])]
       simp only [REG_ADDR_SIZE, REG_POS0_ROFFSET, REG_POS1_ROFFSET, B5_CONSTANT_SIZE,
                  B5_CONSTANT_ROFFSET, MEM_OFFSET_SIZE, MEM_OFFSET_ROFFSET,
                  REG_POS2_ROFFSET, OPCODE_SIZE]
       omega)
    | (rw [w3, extract_bits_eq _ _ _ (by norm_num [MEM_LABEL_SIZE])]
       simp only [MEM_LABEL_SIZE, MEM_LABEL_ROFFSET, OPCODE_SIZE]
       omega)
    | (rw [w4, extract_bits_eq _ _ _ (by norm_num [REG_ADDR_SIZE])]
       simp only [REG_ADDR_SIZE, REG_POS0_ROFFSET, REG_POS1_ROFFSET, REG_POS2_ROFFSET,
                  OPCODE_SIZE]
       omega)
    | (rw [w5, extract_bits_eq _ _ _ (by norm_num [REG_ADDR_SIZE, B4_CONSTANT_SIZE])]
       simp only [REG_ADDR_SIZE, REG_POS0_ROFFSET, REG_POS1_ROFFSET, B4_CONSTANT_SIZE,
                  B4_CONSTANT_ROFFSET, OPCODE_SIZE]
       omega)

/-- Witness for C1: the roundtrip at a concrete legal operand tuple. -/
theorem c1_encode_extract_roundtrip_witness :
    ((9 : Nat) < 32 ∧ (2 : Nat) < 8 ∧ (0 : Nat) < 8 ∧ (1 : Nat) < 8 ∧
     (200 : Nat) < 256 ∧ (17 : Nat) < 32 ∧ (1234 : Nat) < 2048 ∧ (9 : Nat) < 16) ∧
    ((extract_bits (wordOfBytes (encode (.T1 9 2 200))) REG_ADDR_SIZE REG_POS0_ROFFSET = 2 ∧
      extract_bits (wordOfBytes (encode (.T1 9 2 200))) B8_CONSTANT_SIZE B8_CONSTANT_ROFFSET = 200) ∧
     (extract_bits (wordOfBytes (encode (.T2 9 2 0 17))) REG_ADDR_SIZE REG_POS0_ROFFSET = 2 ∧
      extract_bits (wordOfBytes (encode (.T2 9 2 0 17))) REG_ADDR_SIZE REG_POS1_ROFFSET = 0 ∧
      extract_bits (wordOfBytes (encode (.T2 9 2 0 17))) B5_CONSTANT_SIZE B5_CONSTANT_ROFFSET = 17 ∧
      extract_bits (wordOfBytes (encode (.T2 9 2 0 17))) MEM_OFFSET_SIZE MEM_OFFSET_ROFFSET = 17) ∧
     (extract_bits (wordOfBytes (encode (.T3 9 1234))) MEM_LABEL_SIZE MEM_LABEL_ROFFSET = 1234) ∧
     (extract_bits (wordOfBytes (encode (.T4 9 2 0 1))) REG_ADDR_SIZE REG_POS0_ROFFSET = 2 ∧
      extract_bits (wordOfBytes (encode (.T4 9 2 0 1))) REG_ADDR_SIZE REG_POS1_ROFFSET = 0 ∧
      extract_bits (wordOfBytes (encode (.T4 9 2 0 1))) REG_ADDR_SIZE REG_POS2_ROFFSET = 1) ∧
     (extract_bits (wordOfBytes (encode (.T5 9 2 0 9))) REG_ADDR_SIZE REG_POS0_ROFFSET = 2 ∧
      extract_bits (wordOfBytes (encode (.T5 9 2 0 9))) REG_ADDR_SIZE REG_POS1_ROFFSET = 0 ∧
      extract_bits (wordOfBytes (encode (.T5 9 2 0 9))) B4_CONSTANT_SIZE B4_CONSTANT_ROFFSET = 9)) :=
  ⟨by decide,
   c1_encode_extract_roundtrip 9 2 0 1 200 17 1234 9 (by decide) (by decide) (by decide)
     (by decide) (by decide) (by decide) (by decide) (by decide)⟩

/-! ## Claim C3 -/

set_option maxRecDepth 8192 in
/-- All facts needed about the flag-update sequences of add/sub/cmp/shift, for
any flags byte: each sequence pins OV/CA (and ZR/NG where written) and leaves
the unwritten condition bits unchanged. -/
theorem flag_update_facts : ∀ f : Nat, f < 256 →
    (read_flag .OV (change_flags [(.ZR, true), (.NG, false)]
        (change_flags [(.OV, false), (.CA, false)] f)) = false ∧
     read_flag .CA (change_flags [(.ZR, true), (.NG, false)]
        (change_flags [(.OV, false), (.CA, false)] f)) = false ∧
     read_flag .ZR (change_flags [(.ZR, true), (.NG, false)]
        (change_flags [(.OV, false), (.CA, false)] f)) = true ∧
     read_flag .NG (change_flags [(.ZR, true), (.NG, false)]
        (change_flags [(.OV, false), (.CA, false)] f)) = false) ∧
    (read_flag .OV (change_flags [(.ZR, false), (.NG, true)]
        (change_flags [(.OV, false), (.CA, false)] f)) = false ∧
     read_flag .CA (change_flags [(.ZR, false), (.NG, true)]
        (change_flags [(.OV, false), (.CA, false)] f)) = false ∧
     read_flag .ZR (change_flags [(.ZR, false), (.NG, true)]
        (change_flags [(.OV, false), (.CA, false)] f)) = false ∧
     read_flag .NG (change_flags [(.ZR, false), (.NG, true)]
        (change_flags [(.OV, false), (.CA, false)] f)) = true) ∧
    (read_flag .OV (change_flags [(.OV, false), (.CA, false)] f) = false ∧
     read_flag .CA (change_flags [(.OV, false), (.CA, false)] f) = false ∧
     read_flag .ZR (change_flags [(.OV, false), (.CA, false)] f) = read_flag .ZR f ∧
     read_flag .NG (change_flags [(.OV, false), (.CA, false)] f) = read_flag .NG f) ∧
    (read_flag .OV (change_flags [(.OV, true), (.CA, true)] f) = true ∧
     read_flag .CA (change_flags [(.OV, true), (.CA, true)] f) = true ∧
     read_flag .ZR (change_flags [(.OV, true), (.CA, true)] f) = read_flag .ZR f ∧
     read_flag .NG (change_flags [(.OV, true), (.CA, true)] f) = read_flag .NG f) ∧
    (read_flag .OV (change_flags [(.OV, false), (.CA, false)]
        (change_flags [(.ZR, true), (.NG, false)] f)) = false ∧
     read_flag .CA (change_flags [(.OV, false), (.CA, false)]
        (change_flags [(.ZR, true), (.NG, false)] f)) = false ∧
     read_flag .ZR (change_flags [(.OV, false), (.CA, false)]
        (change_flags [(.ZR, true), (.NG, false)] f)) = true ∧
     read_flag .NG (change_flags [(.OV, false), (.CA, false)]
        (change_flags [(.ZR, true), (.NG, false)] f)) = false) ∧
    (read_flag .OV (change_flags [(.OV, false), (.CA, false)]
        (change_flags [(.ZR, false), (.NG, true)] f)) = false ∧
     read_flag .CA (change_flags [(.OV, false), (.CA, false)]
        (change_flags [(.ZR, false), (.NG, true)] f)) = false ∧
     read_flag .ZR (change_flags [(.OV, false), (.CA, false)]
        (change_flags [(.ZR, false), (.NG, true)] f)) = false ∧
     read_flag .NG (change_flags [(.OV, false), (.CA, false)]
        (change_flags [(.ZR, false), (.NG, true)] f)) = true) := by
  decide

/-- The signed sum computed by add-immediate: `gp[rA] + imm5`. -/
def addImSum (s : Registers) : Int :=
  s.gp (extract_bits s.ir REG_ADDR_SIZE REG_POS1_ROFFSET) +
    Int.ofNat (extract_bits s.ir B5_CONSTANT_SIZE B5_CONSTANT_ROFFSET)

/-- The signed sum computed by add-register: `gp[rA] + gp[rB]`. -/
def addRgSum (s : Registers) : Int :=
  s.gp (extract_bits s.ir REG_ADDR_SIZE REG_POS1_ROFFSET) +
    s.gp (extract_bits s.ir REG_ADDR_SIZE REG_POS2_ROFFSET)

/-- The amended semantics of one add variant with signed sum `v`, destination
written by `out`: on no-overflow the destination gets the sum, OV and CA are
cleared, ZR/NG are written only for zero or negative results and otherwise
keep their previous values; on overflow OV and CA are set and nothing else
changes. -/
def AddSpec (s out : Registers) (v : Int) : Prop :=
  ((-32768 ≤ v ∧ v ≤ 32767) →
    out.gp = updGp s.gp (extract_bits s.ir REG_ADDR_SIZE REG_POS0_ROFFSET) v ∧
    read_flag .OV out.flags = false ∧
    read_flag .CA out.flags = false ∧
    (v = 0 → read_flag .ZR out.flags = true ∧ read_flag .NG out.flags = false) ∧
    (v < 0 → read_flag .ZR out.flags = false ∧ read_flag .NG out.flags = true) ∧
    (0 < v → read_flag .ZR out.flags = read_flag .ZR s.flags ∧
             read_flag .NG out.flags = read_flag .NG s.flags)) ∧
  (¬(-32768 ≤ v ∧ v ≤ 32767) →
    out.gp = s.gp ∧
    read_flag .OV out.flags = true ∧
    read_flag .CA out.flags = true ∧
    read_flag .ZR out.flags = read_flag .ZR s.flags ∧
    read_flag .NG out.flags = read_flag .NG s.flags)

/-- C3 counterexample: with incoming flags ZR=1 (byte 4), executing
add-immediate `add r0 r1 #2` (word 0x4022 = 16418) on `gp[1] = 1` stores the
strictly positive result 3 yet leaves ZR set: ZR is not cleared on a positive
result, refuting "ZR and NG are cleared whenever the result is strictly
positive". -/
theorem c3_counterexample :
    (add_im { gp := fun _ => 1, pc := 0, acc := 0, ir := 16418, mar := 0,
              flags := 4 }).gp 0 = 3 ∧
    read_flag .ZR (add_im { gp := fun _ => 1, pc := 0, acc := 0, ir := 16418,
                            mar := 0, flags := 4 }).flags = true ∧
    (3 : Int) ≠ 0 := by
  refine ⟨by decide, by decide, by decide⟩

/-- C3 (amended): for both add variants, on no-overflow the destination
receives the sum, OV=0, CA=0, ZR/NG are set per result for a zero or negative
result but retain their previous values for a strictly positive result; on
overflow OV and CA are set and the destination and ZR/NG are unchanged. -/
theorem c3_add_semantics (s : Registers) (h : s.flags < 256) :
    AddSpec s (add_im s) (addImSum s) ∧ AddSpec s (add_rg s) (addRgSum s) := by
  obtain ⟨FZ, FN, FP, FO, _, _⟩ := flag_update_facts s.flags h
  constructor
  · constructor
    · intro hr
      simp only [addImSum] at hr
      simp only [add_im, checkedAdd, addImSum, if_pos hr]
      split_ifs with hz hn
      · exact ⟨rfl, FZ.1, FZ.2.1, fun _ => ⟨FZ.2.2.1, FZ.2.2.2⟩,
               fun hc => absurd hc (by omega), fun hc => absurd hc (by omega)⟩
      · exact ⟨rfl, FN.1, FN.2.1, fun hc => absurd hc hz,
               fun _ => ⟨FN.2.2.1, FN.2.2.2⟩, fun hc => absurd hc (by omega)⟩
      · exact ⟨rfl, FP.1, FP.2.1, fun hc => absurd hc hz,
               fun hc => absurd hc hn, fun _ => ⟨FP.2.2.1, FP.2.2.2⟩⟩
    · intro hr
      simp only [addImSum] at hr
      simp only [add_im, checkedAdd, addImSum, if_neg hr]
      exact ⟨by trivial, FO.1, FO.2.1, FO.2.2.1, FO.2.2.2⟩
  · constructor
    · intro hr
      simp only [addRgSum] at hr
      simp only [add_rg, checkedAdd, addRgSum, if_pos hr]
      split_ifs with hz hn
      · exact ⟨rfl, FZ.1, FZ.2.1, fun _ => ⟨FZ.2.2.1, FZ.2.2.2⟩,
               fun hc => absurd hc (by omega), fun hc => absurd hc (by omega)⟩
      · exact ⟨rfl, FN.1, FN.2.1, fun hc => absurd hc hz,
               fun _ => ⟨FN.2.2.1, FN.2.2.2⟩, fun hc => absurd hc (by omega)⟩
      · exact ⟨rfl, FP.1, FP.2.1, fun hc => absurd hc hz,
               fun hc => absurd hc hn, fun _ => ⟨FP.2.2.1, FP.2.2.2⟩⟩
    · intro hr
      simp only [addRgSum] at hr
      simp only [add_rg, checkedAdd, addRgSum, if_neg hr]
      exact ⟨by trivial, FO.1, FO.2.1, FO.2.2.1, FO.2.2.2⟩

/-- Witness for C3: the amended add semantics at a concrete state. -/
theorem c3_add_semantics_witness :
    ({ gp := fun _ => 1, pc := 0, acc := 0, ir := 16418, mar := 0,
       flags := 4 } : Registers).flags < 256 ∧
    (AddSpec { gp := fun _ => 1, pc := 0, acc := 0, ir := 16418, mar := 0, flags := 4 }
      (add_im { gp := fun _ => 1, pc := 0, acc := 0, ir := 16418, mar := 0, flags := 4 })
      (addImSum { gp := fun _ => 1, pc := 0, acc := 0, ir := 16418, mar := 0, flags := 4 }) ∧
     AddSpec { gp := fun _ => 1, pc := 0, acc := 0, ir := 16418, mar := 0, flags := 4 }
      (add_rg { gp := fun _ => 1, pc := 0, acc := 0, ir := 16418, mar := 0, flags := 4 })
      (addRgSum { gp := fun _ => 1, pc := 0, acc := 0, ir := 16418, mar := 0, flags := 4 })) :=
  ⟨by decide, c3_add_semantics _ (by decide)⟩

/-! ## Claim C5 -/

theorem updGp_self (g : Nat → Int) (i : Nat) (v : Int) : updGp g i v i = v := by
  simp [updGp]

/-- The value shift-left stores: Rust `i16 <<` of `gp[rs]` by the 4-bit
immediate (left shift discarding overflowing bits). -/
def shlResult (s : Registers) : Int :=
  i16Shl (s.gp (extract_bits s.ir REG_ADDR_SIZE REG_POS1_ROFFSET))
    (extract_bits s.ir B4_CONSTANT_SIZE B4_CONSTANT_ROFFSET)

/-- The value shift-right stores: Rust `i16 >>` of `gp[rs]` by the 4-bit
immediate, an arithmetic (sign-extending) shift. -/
def shrResult (s : Registers) : Int :=
  i16Shr (s.gp (extract_bits s.ir REG_ADDR_SIZE REG_POS1_ROFFSET))
    (extract_bits s.ir B4_CONSTANT_SIZE B4_CONSTANT_ROFFSET)

/-- The amended semantics of one shift variant storing value `v`: the
destination receives `v`, OV and CA are cleared, ZR/NG are written only for a
zero or negative result and otherwise keep their previous values. -/
def ShiftSpec (s out : Registers) (v : Int) : Prop :=
  out.gp = updGp s.gp (extract_bits s.ir REG_ADDR_SIZE REG_POS0_ROFFSET) v ∧
  read_flag .OV out.flags = false ∧
  read_flag .CA out.flags = false ∧
  (v = 0 → read_flag .ZR out.flags = true ∧ read_flag .NG out.flags = false) ∧
  (v < 0 → read_flag .ZR out.flags = false ∧ read_flag .NG out.flags = true) ∧
  (0 < v → read_flag .ZR out.flags = read_flag .ZR s.flags ∧
           read_flag .NG out.flags = read_flag .NG s.flags)

/-- C5 counterexample: `shr r0 r1 #1` (word 0x6822 = 26658) on `gp[1] = -2`
stores -1 (arithmetic shift), not the logical zero-filling result 32767; and
`shl r0 r1 #0` (word 0x6020 = 24608) on `gp[1] = 1` with incoming ZR=1
(flags byte 4) stores the strictly positive result 1 yet leaves ZR set,
refuting "ZR=(result==0) regardless of the flag values before execution". -/
theorem c5_counterexample :
    (shift_r { gp := fun _ => -2, pc := 0, acc := 0, ir := 26658, mar := 0,
               flags := 0 }).gp 0 = -1 ∧
    toI16 (toU16 (-2) >>> 1) = 32767 ∧ (-1 : Int) ≠ 32767 ∧
    (shift_l { gp := fun _ => 1, pc := 0, acc := 0, ir := 24608, mar := 0,
               flags := 4 }).gp 0 = 1 ∧
    read_flag .ZR (shift_l { gp := fun _ => 1, pc := 0, acc := 0, ir := 24608,
                             mar := 0, flags := 4 }).flags = true ∧
    (1 : Int) ≠ 0 := by
  refine ⟨by decide, by decide, by decide, by decide, by decide, by decide⟩

/-- C5 (amended): shl stores the wrapping left shift and shr the arithmetic
(sign-extending) right shift of the source by the 4-bit immediate; OV and CA
are cleared; ZR is set and NG cleared for a zero result, ZR cleared and NG set
for a negative result, and for a strictly positive result ZR and NG retain
their previous values. -/
theorem c5_shift_semantics (s : Registers) (h : s.flags < 256) :
    ShiftSpec s (shift_l s) (shlResult s) ∧ ShiftSpec s (shift_r s) (shrResult s) := by
  obtain ⟨_, _, FP, _, SZ, SN⟩ := flag_update_facts s.flags h
  constructor
  · simp only [shift_l, shlResult, updGp_self]
    split_ifs with hz hn
    · exact ⟨rfl, SZ.1, SZ.2.1, fun _ => ⟨SZ.2.2.1, SZ.2.2.2⟩,
             fun hc => absurd hc (by omega), fun hc => absurd hc (by omega)⟩
    · exact ⟨rfl, SN.1, SN.2.1, fun hc => absurd hc hz,
             fun _ => ⟨SN.2.2.1, SN.2.2.2⟩, fun hc => absurd hc (by omega)⟩
    · exact ⟨rfl, FP.1, FP.2.1, fun hc => absurd hc hz,
             fun hc => absurd hc hn, fun _ => ⟨FP.2.2.1, FP.2.2.2⟩⟩
  · simp only [shift_r, shrResult, updGp_self]
    split_ifs with hz hn
    · exact ⟨rfl, SZ.1, SZ.2.1, fun _ => ⟨SZ.2.2.1, SZ.2.2.2⟩,
             fun hc => absurd hc (by omega), fun hc => absurd hc (by omega)⟩
    · exact ⟨rfl, SN.1, SN.2.1, fun hc => absurd hc hz,
             fun _ => ⟨SN.2.2.1, SN.2.2.2⟩, fun hc => absurd hc (by omega)⟩
    · exact ⟨rfl, FP.1, FP.2.1, fun hc => absurd hc hz,
             fun hc => absurd hc hn, fun _ => ⟨FP.2.2.1, FP.2.2.2⟩⟩

/-- Witness for C5: the amended shift semantics at a concrete state. -/
theorem c5_shift_semantics_witness :
    ({ gp := fun _ => -2, pc := 0, acc := 0, ir := 26658, mar := 0,
       flags := 0 } : Registers).flags < 256 ∧
    (ShiftSpec { gp := fun _ => -2, pc := 0, acc := 0, ir := 26658, mar := 0, flags := 0 }
      (shift_l { gp := fun _ => -2, pc := 0, acc := 0, ir := 26658, mar := 0, flags := 0 })
      (shlResult { gp := fun _ => -2, pc := 0, acc := 0, ir := 26658, mar := 0, flags := 0 }) ∧
     ShiftSpec { gp := fun _ => -2, pc := 0, acc := 0, ir := 26658, mar := 0, flags := 0 }
      (shift_r { gp := fun _ => -2, pc := 0, acc := 0, ir := 26658, mar := 0, flags := 0 })
      (shrResult { gp := fun _ => -2, pc := 0, acc := 0, ir := 26658, mar := 0, flags := 0 })) :=
  ⟨by decide, c5_shift_semantics _ (by decide)⟩

/-! ## Claim C8 -/

/-- The 16-bit value a data-array piece contributes: the piece is trimmed and
parsed as signed 16-bit; a piece that fails to parse contributes 0. -/
def dataPieceVal (p : List Char) : Nat :=
  match parseIntRange (-32768) 32767 (trimChars p) with
  | some v => toU16 v
  | none => toU16 0

theorem Asm.bytesOfWords_length (l : List Nat) :
    (Asm.bytesOfWords l).length = 2 * l.length := by
  induction l with
  | nil => simp [Asm.bytesOfWords]
  | cons d r ih => simp [Asm.bytesOfWords, ih]; omega

theorem Asm.bytesOfWords_getD (l : List Nat) (i : Nat) (h : i < l.length) :
    (Asm.bytesOfWords l).getD (2 * i) 999 = ((l.getD i 0) >>> 8) % 256 ∧
    (Asm.bytesOfWords l).getD (2 * i + 1) 999 = (l.getD i 0) % 256 := by
  induction l generalizing i with
  | nil => simp at h
  | cons d r ih =>
    cases i with
    | zero => simp [Asm.bytesOfWords]
    | succ j =>
      have h2 : 2 * (j + 1) = 2 * j + 1 + 1 := by ring
      rw [h2]
      simp only [Asm.bytesOfWords, List.getD_cons_succ]
      exact ih j (by simp only [List.length_cons] at h; omega)

theorem getD_map_dataPieceVal (l : List (List Char)) (i : Nat) (h : i < l.length) :
    (l.map dataPieceVal).getD i 0 = dataPieceVal (l.getD i []) := by
  induction l generalizing i with
  | nil => simp at h
  | cons a r ih =>
    cases i with
    | zero => simp
    | succ j => simpa using ih j (by simpa using Nat.lt_of_succ_lt_succ h)

theorem digit_beq_false {c : Char} (h : c.isDigit = true) {d : Char}
    (hd : d.isDigit = false) : (c == d) = false ∧ (d == c) = false := by
  constructor
  · cases hbe : c == d
    · rfl
    · exfalso
      have he : c = d := eq_of_beq hbe
      rw [he] at h
      rw [h] at hd
      cases hd
  · cases hbe : d == c
    · rfl
    · exfalso
      have he : d = c := eq_of_beq hbe
      rw [← he] at h
      rw [h] at hd
      cases hd

/-- C8 counterexample: the data line `1, x` contains a piece that fails to
parse as a signed 16-bit integer, yet the parser does not abort: it classifies
the line as data with the substitute value 0 for the bad piece, emitting bytes
`00 01 00 00`. -/
theorem c8_counterexample :
    Asm.parse_line "1, x".toList 0 = .ok (.Data [0, 1, 0, 0]) ∧
    ∀ e : LineError, Asm.parse_line "1, x".toList 0 ≠ .error e := by
  refine ⟨by decide, ?_⟩
  intro e hc
  have h1 : Asm.parse_line "1, x".toList 0 = .ok (.Data [0, 1, 0, 0]) := by decide
  rw [h1] at hc
  exact Except.noConfusion hc

/-- C8 (amended): a data line beginning with an ASCII digit is split on commas;
each piece is trimmed and parsed as a signed 16-bit integer and contributes
exactly two bytes (MSB then LSB of the value as u16); a piece that fails to
parse contributes the substitute value 0 (bytes 00 00) and assembly continues
rather than aborting with an error for that line. -/
theorem c8_digit_data_line (line : List Char) (ln : Nat)
    (h : startsWithPred Char.isDigit (trimChars line) = true) :
    ∃ bs, Asm.parse_line line ln = .ok (.Data bs) ∧
      bs.length = 2 * (splitOnChar ',' (trimChars line)).length ∧
      ∀ i, i < (splitOnChar ',' (trimChars line)).length →
        bs.getD (2 * i) 999 =
          ((dataPieceVal ((splitOnChar ',' (trimChars line)).getD i [])) >>> 8) % 256 ∧
        bs.getD (2 * i + 1) 999 =
          (dataPieceVal ((splitOnChar ',' (trimChars line)).getD i [])) % 256 := by
  cases ht : trimChars line with
  | nil => rw [ht] at h; simp [startsWithPred] at h
  | cons c rest =>
    rw [ht] at h
    simp only [startsWithPred] at h
    have hslash := (digit_beq_false h (d := '/') (by decide)).2
    have hdot := (digit_beq_false h (d := '.') (by decide)).2
    have hquote := (digit_beq_false h (d := '"') (by decide)).1
    have hpl : Asm.parse_line line ln =
        .ok (.Data (Asm.bytesOfWords ((splitOnChar ',' (c :: rest)).map dataPieceVal))) := by
      have hfn : (fun s => match parseIntRange (-32768) 32767 (trimChars s) with
          | some v => toU16 v
          | none => toU16 0) = dataPieceVal := rfl
      simp only [Asm.parse_line, ht, Asm.parsed_data, List.isPrefixOf, startsWithPred,
                 hslash, hdot, hquote, h, List.isEmpty, Bool.false_and, Bool.false_or,
                 Bool.or_false, Bool.or_true, if_false, if_true, hfn]
      simp
    refine ⟨_, hpl, ?_, ?_⟩
    · rw [Asm.bytesOfWords_length, List.length_map]
    · intro i hi
      have hlen : i < ((splitOnChar ',' (c :: rest)).map dataPieceVal).length := by
        simpa using hi
      have hb := Asm.bytesOfWords_getD _ i hlen
      rw [getD_map_dataPieceVal _ i hi] at hb
      exact hb

/-- Witness for C8: the amended data-line behavior at the concrete line `12`. -/
theorem c8_digit_data_line_witness :
    startsWithPred Char.isDigit (trimChars "12".toList) = true ∧
    (∃ bs, Asm.parse_line "12".toList 0 = .ok (.Data bs) ∧
      bs.length = 2 * (splitOnChar ',' (trimChars "12".toList)).length ∧
      ∀ i, i < (splitOnChar ',' (trimChars "12".toList)).length →
        bs.getD (2 * i) 999 =
          ((dataPieceVal ((splitOnChar ',' (trimChars "12".toList)).getD i [])) >>> 8) % 256 ∧
        bs.getD (2 * i + 1) 999 =
          (dataPieceVal ((splitOnChar ',' (trimChars "12".toList)).getD i [])) % 256) :=
  ⟨by decide, c8_digit_data_line "12".toList 0 (by decide)⟩

/-! ## Claim C10 -/

theorem applyFlag_lt (f : Nat) (hf : f < 16) (x : Flags × Bool) : applyFlag f x < 16 := by
  obtain ⟨fl, b⟩ := x
  cases b
  · simpa [applyFlag] using Nat.lt_of_le_of_lt Nat.and_le_left hf
  · have hb : (1 <<< flagBit fl) < 2 ^ 4 := by cases fl <;> decide
    have hf4 : f < 2 ^ 4 := by omega
    simpa [applyFlag] using Nat.or_lt_two_pow hf4 hb

theorem change_flags_lt (l : List (Flags × Bool)) (f : Nat) (hf : f < 16) :
    change_flags l f < 16 := by
  induction l generalizing f with
  | nil => simpa [change_flags] using hf
  | cons x r ih =>
    simp only [change_flags, List.foldl_cons] at *
    exact ih _ (applyFlag_lt f hf x)

theorem push_fold_flags (l : List Nat) (p : Registers × Memory) :
    ((l.foldl (fun q i => pushIter q.1 q.2 i) p).1).flags = p.1.flags := by
  induction l generalizing p with
  | nil => rfl
  | cons a r ih => simpa [List.foldl_cons, pushIter] using ih (pushIter p.1 p.2 a)

theorem pop_fold_flags (l : List Nat) (m : Memory) (r : Registers) :
    (l.foldl (fun q i => popIter q m i) r).flags = r.flags := by
  induction l generalizing r with
  | nil => rfl
  | cons a rest ih => simpa [List.foldl_cons, popIter] using ih (popIter r m a)

set_option maxHeartbeats 2000000 in
theorem execInstr_flags (oc : Opcode) (r : Registers) (m : Memory) (hf : r.flags < 16) :
    (execInstr oc r m).1.flags < 16 := by
  cases oc
  case Push =>
    have h := push_fold_flags
      (List.range (extract_bits r.ir PUSHPOP_NUM_SIZE PUSHPOP_NUM_ROFFSET)) (r, m)
    simp only [execInstr, push]
    rw [h]
    exact hf
  case Pop =>
    have h := pop_fold_flags
      (List.range (extract_bits r.ir PUSHPOP_NUM_SIZE PUSHPOP_NUM_ROFFSET)) m r
    simp only [execInstr, pop]
    rw [h]
    exact hf
  all_goals
    simp only [execInstr, mov_im, mov_rg, load, load_rg, add_im, add_rg, sub_im,
               sub_rg, shift_l, shift_r, and_i, or_i, not_i, jmp, bln, ret, cmp_im,
               cmp_rg, beq, bne_i, bgt, bgtu, blt, bltu, branch_on_condition]
  all_goals repeat' split
  all_goals
    first
      | exact hf
      | exact change_flags_lt _ _ hf
      | exact change_flags_lt _ _ (change_flags_lt _ _ hf)

theorem stepFn_flags {r r' : Registers} {m m' : Memory}
    (h : stepFn r m = some (r', m')) (hf : r.flags < 16) : r'.flags < 16 := by
  simp only [stepFn, execute] at h
  cases hoc : opcodeOfNat (decode (fetch r.pc m)) with
  | none =>
    rw [hoc] at h
    simp at h
  | some oc =>
    rw [hoc] at h
    simp only at h
    have hflags := execInstr_flags oc { r with ir := fetch r.pc m } m hf
    rcases hE : execInstr oc { r with ir := fetch r.pc m } m with ⟨a, b, out⟩
    rw [hE] at h hflags
    cases out
    · simp only at h
      cases h
      simpa using hflags
    · simp only at h
      cases h
      simpa using hflags
    · simp only at h
      cases h
      simpa using hflags

/-- C10: the upper four bits of the flags byte are always zero: the reset state
has flags 0 and `change_flags` only touches bits 0..3, so every register state
reachable through any sequence of executed instructions satisfies flags < 16. -/
theorem c10_reachable_flags_nibble (mem0 : Memory) (r : Registers) (m : Memory)
    (h : Reach mem0 r m) : r.flags < 16 := by
  induction h with
  | init => simp [Registers.new]
  | step hr hstep ih => exact stepFn_flags hstep ih

/-- Witness for C10: the invariant applied to the reset state, which is
reachable by the empty instruction sequence. -/
theorem c10_reachable_flags_nibble_witness :
    Reach (fun _ => 0) Registers.new (fun _ => 0) ∧ Registers.new.flags < 16 :=
  ⟨Reach.init,
   c10_reachable_flags_nibble (fun _ => 0) Registers.new (fun _ => 0) Reach.init⟩
